import Mathlib

/-!
# Verification of the DeCode Python-code-visualizer interpreter

This file gives a shallow embedding, in Lean 4, of the execution-trace
builder found in `src/App.jsx` of the DeCode repository, and proves /
refutes the frozen claims about it.

The source file contains two concatenated near-duplicate implementations
of the interpreter (a separator token sits at source line 1988).  The
first implementation (`safeEval` at line 69, `processLine` at line 217,
`handleFunctionCall` at line 171, `parseCode` at line 765) is embedded
below under its source names; the second implementation (`safeEval` at
line 2056, `processLine` at line 2132, `parseCode` at line 2099) is
embedded with a `2` suffix (`safeEval2`, `processLine2`, `parseCode2`).

The source evaluates expressions by regex-rewriting Python-ish text into
a JavaScript expression and handing it to `new Function(...)`.  The
rewriting chain is embedded verbatim (`pythonToJs`); the host JavaScript
evaluation of the rewritten text is modelled by an explicit
tokenizer/precedence-climbing evaluator (`jsEval`) over the expression
subset the rewritten programs can produce (number/string/boolean/null
literals, identifiers, `Math.pow` / `Math.floor`, the helper built-ins
`__print`/`__repr`/`__range`/`__len` that the source injects into scope,
array literals, unary `!`/`-`, and the binary operators the rewrite can
emit).  JavaScript `ReferenceError`s for undefined identifiers are
modelled with the exact host message (`"z is not defined"`), since one
claim depends on it; other host error messages are modelled
approximately (only their presence, not their text, is ever used).
Numbers are modelled as integers: no claim exercises non-integral
arithmetic, and the model raises an explicit error on the few operations
(`/` with a non-divisible pair) whose JavaScript result would leave the
integers.
-/

set_option maxRecDepth 8192
set_option maxHeartbeats 2000000

namespace DeCode

/-- One logical source line, as produced by `parseCode`'s segmenter:
`codeString.split('\n').map((line, i) => ({content, originalIndex, trimmed, indent}))`. -/
structure LineData where
  content : String
  originalIndex : Nat
  trimmed : String
  indent : Nat
deriving Repr, DecidableEq

/-- Runtime values of the interpreter, mirroring the JavaScript values the
source manipulates: numbers, strings, booleans, `null`, `undefined`,
`NaN`, arrays, plain string-keyed objects (dicts), and the plain objects
`{name, params, body, closure, isFunction: true}` that the source uses as
function values. -/
inductive Value where
  | num (n : Int)
  | str (s : String)
  | bool (b : Bool)
  | null
  | undef
  | nan
  | list (xs : List Value)
  | dict (entries : List (String × Value))
  | func (name : String) (params : List String) (body : List LineData)
      (closure : List (String × Value))

/-- A JavaScript object used as an environment: an insertion-ordered
string-keyed map. -/
abbrev Env := List (String × Value)

/-- Property lookup on a JS object (`vars[name]`); `none` models `undefined`. -/
def lookupEnv : Env → String → Option Value
  | [], _ => none
  | (k, v) :: rest, name => if k = name then some v else lookupEnv rest name

/-- Property write on a JS object (`vars[name] = v`): an existing key keeps
its position, a new key is appended (JS insertion order). -/
def setEnv : Env → String → Value → Env
  | [], name, v => [(name, v)]
  | (k, w) :: rest, name, v =>
      if k = name then (k, v) :: rest else (k, w) :: setEnv rest name v

/-- `typeof` of a JS value (as the source uses it in error messages). -/
def jsTypeof : Option Value → String
  | none => "undefined"
  | some (.num _) => "number"
  | some (.str _) => "string"
  | some (.bool _) => "boolean"
  | some .null => "object"
  | some .undef => "undefined"
  | some .nan => "number"
  | some (.list _) => "object"
  | some (.dict _) => "object"
  | some (.func _ _ _ _) => "object"

/-- JS truthiness (`Boolean(v)`). -/
def truthy : Value → Bool
  | .num n => n ≠ 0
  | .str s => s ≠ ""
  | .bool b => b
  | .null => false
  | .undef => false
  | .nan => false
  | .list _ => true
  | .dict _ => true
  | .func _ _ _ _ => true

/-- JS `String(v)` for the primitive values the model needs. -/
def jsToString : Value → String
  | .num n => toString n
  | .str s => s
  | .bool b => if b then "true" else "false"
  | .null => "null"
  | .undef => "undefined"
  | .nan => "NaN"
  | .list _ => ""
  | .dict _ => ""
  | .func _ _ _ _ => ""

mutual

/-- `JSON.stringify` restricted to the value shapes the interpreter stores
(numbers, strings, booleans, null, arrays, plain objects). -/
def jsonStringify : Value → String
  | .num n => toString n
  | .str s => "\"" ++ s ++ "\""
  | .bool b => if b then "true" else "false"
  | .null => "null"
  | .undef => "null"
  | .nan => "null"
  | .list xs => "[" ++ jsonStringifyItems xs ++ "]"
  | .dict entries => "\x7b" ++ jsonStringifyFields entries ++ "\x7d"
  | .func _ _ _ _ => "\x7b\x7d"

def jsonStringifyItems : List Value → String
  | [] => ""
  | [x] => jsonStringify x
  | x :: rest => jsonStringify x ++ "," ++ jsonStringifyItems rest

def jsonStringifyFields : List (String × Value) → String
  | [] => ""
  | [(k, v)] => "\"" ++ k ++ "\":" ++ jsonStringify v
  | (k, v) :: rest => "\"" ++ k ++ "\":" ++ jsonStringify v ++ "," ++ jsonStringifyFields rest

end

mutual

/-- `helperFunctions.__repr` (source lines 38–47). -/
def reprValue : Value → String
  | .null => "None"
  | .bool b => if b then "True" else "False"
  | .str s => "'" ++ s ++ "'"
  | .num n => toString n
  | .nan => "NaN"
  | .list xs => "[" ++ reprItems xs ++ "]"
  | .dict entries => jsonStringify (.dict entries)
  | .func a b c d => jsonStringify (.func a b c d)
  | .undef => "undefined"

def reprItems : List Value → String
  | [] => ""
  | [x] => reprValue x
  | x :: rest => reprValue x ++ ", " ++ reprItems rest

end

/-- `helperFunctions.__print` (source lines 23–37): render one argument. -/
def printRender (v : Value) : String :=
  match v with
  | .list xs => "[" ++ reprItems xs ++ "]"
  | .null => "None"
  | .dict entries => jsonStringify (.dict entries)
  | .func a b c d => jsonStringify (.func a b c d)
  | v => jsToString v

/-- `helperFunctions.__print`: join rendered arguments with one space. -/
def printJoin : List Value → String
  | [] => ""
  | [v] => printRender v
  | v :: rest => printRender v ++ " " ++ printJoin rest

/-- Count-down loop used for the three-argument form of `__range`. -/
def rangeLoop (fuel : Nat) (i stop step : Int) : List Int :=
  match fuel with
  | 0 => []
  | f + 1 =>
      if (if step > 0 then i < stop else i > stop) then
        i :: rangeLoop f (i + step) stop step
      else []

/-- `helperFunctions.__range` (source lines 48–60). -/
def jsRange : List Value → Except String Value
  | [.num a] => .ok (.list (((List.range a.toNat).map (fun i => Value.num i))))
  | [.num a, .num b] =>
      .ok (.list (((List.range (b - a).toNat).map (fun i => Value.num (a + i)))))
  | [.num a, .num b, .num c] =>
      if c = 0 then .error "range infinite loop"
      else .ok (.list ((rangeLoop ((b - a).natAbs + 1) a b c).map Value.num))
  | _ => .ok (.list [])

/-- `helperFunctions.__len` (source lines 61–66). -/
def jsLen : Value → Except String Value
  | .list xs => .ok (.num xs.length)
  | .str s => .ok (.num s.length)
  | .dict entries => .ok (.num entries.length)
  | .func _ _ _ _ => .ok (.num 5)
  | v => .error ("object of type '" ++ jsTypeof (some v) ++ "' has no len()")

/-! ## String utilities mirroring the JavaScript string/regex operations -/

/-- JS `\w` character class. -/
def isWordChar (c : Char) : Bool := c.isAlpha || c.isDigit || c = '_'

/-- JS `\s` character class (the part of it the source can meet). -/
def isSpaceChar (c : Char) : Bool := c = ' ' || c = '\t' || c = '\n' || c = '\r'

/-- `l` starts with prefix `p`. -/
def startsWithL : List Char → List Char → Bool
  | _, [] => true
  | [], _ :: _ => false
  | c :: cs, p :: ps => c = p && startsWithL cs ps

/-- `l` contains `p` as a contiguous sublist (JS `String.includes`). -/
def containsSub : List Char → List Char → Bool
  | [], p => p.isEmpty
  | s@(_ :: rest), p => startsWithL s p || containsSub rest p


/-- Structural split on a single separator character (kernel-reducible
replacement for `String.splitOn` with a one-character separator, which is
all the source uses). -/
def splitOnCharGo (sep : Char) : List Char → List Char → List String
  | [], cur => [String.mk cur.reverse]
  | c :: rest, cur =>
      if c = sep then String.mk cur.reverse :: splitOnCharGo sep rest []
      else splitOnCharGo sep rest (c :: cur)

def splitChar (s : String) (sep : Char) : List String := splitOnCharGo sep s.data []

/-- Structural join (kernel-reducible replacement for `String.intercalate`). -/
def joinWith (sep : String) : List String → String
  | [] => ""
  | [x] => x
  | x :: rest => x ++ sep ++ joinWith sep rest

/-- Kernel-reducible `String.startsWith`. -/
def startsWithS (s p : String) : Bool := startsWithL s.data p.data

/-- Kernel-reducible `String.endsWith`. -/
def endsWithS (s p : String) : Bool := startsWithL s.data.reverse p.data.reverse

/-- JS `a.includes(b)`. -/
def includesStr (s pat : String) : Bool := containsSub s.data pat.data

/-- JS `String.trim`. -/
def trimJs (s : String) : String :=
  .mk (((s.data.dropWhile isSpaceChar).reverse.dropWhile isSpaceChar).reverse)

/-- Plain global replace, left to right, non-overlapping
(JS `replace(/pat/g, repl)` for a literal pattern). -/
def replaceAllL (fuel : Nat) (pat repl s : List Char) : List Char :=
  match fuel, s with
  | 0, s => s
  | _ + 1, [] => []
  | f + 1, c :: rest =>
      if startsWithL (c :: rest) pat ∧ pat ≠ [] then
        repl ++ replaceAllL f pat repl ((c :: rest).drop pat.length)
      else
        c :: replaceAllL f pat repl rest

/-- Global replace of a word-bounded literal (JS `replace(/\bword\b/g, repl)`
when `closeRight = true`, and `replace(/\bword(/g, repl)`-style patterns with
only a left boundary when `closeRight = false`).  `prevWord` tracks whether
the previous character was a word character. -/
def replaceWordL (fuel : Nat) (word repl : List Char) (closeRight : Bool)
    (prevWord : Bool) (s : List Char) : List Char :=
  match fuel, s with
  | 0, s => s
  | _ + 1, [] => []
  | f + 1, c :: rest =>
      let rightOk := fun (t : List Char) =>
        !closeRight || (match t.drop word.length with
                        | [] => true
                        | d :: _ => !isWordChar d)
      if !prevWord ∧ startsWithL (c :: rest) word ∧ rightOk (c :: rest) then
        repl ++ replaceWordL f word repl closeRight
          (match word.getLast? with | some w => isWordChar w | none => prevWord)
          ((c :: rest).drop word.length)
      else
        c :: replaceWordL f word repl closeRight (isWordChar c) rest

/-- JS `replace(/\bnot\s+/g, '!')`: the word `not` with a left boundary and at
least one following whitespace character (the whitespace run is consumed). -/
def replaceNotL (fuel : Nat) (prevWord : Bool) (s : List Char) : List Char :=
  match fuel, s with
  | 0, s => s
  | _ + 1, [] => []
  | f + 1, c :: rest =>
      if !prevWord && startsWithL (c :: rest) ['n', 'o', 't'] &&
          (match (c :: rest).drop 3 with
           | d :: _ => isSpaceChar d
           | [] => false) then
        '!' :: replaceNotL f false (((c :: rest).drop 3).dropWhile isSpaceChar)
      else
        c :: replaceNotL f (isWordChar c) rest

/-- One attempt of the power-operator pattern
`(\d+|\w+)\s*\*\*\s*(\d+|\w+)` at the head of `s`; on success returns the
two operands and the rest of the input. -/
def powerMatchAt (s : List Char) : Option (List Char × List Char × List Char) :=
  let w1 := s.takeWhile isWordChar
  if w1 = [] then none
  else
    let afterW1 := (s.drop w1.length).dropWhile isSpaceChar
    if startsWithL afterW1 ['*', '*'] then
      let afterStars := (afterW1.drop 2).dropWhile isSpaceChar
      let w2 := afterStars.takeWhile isWordChar
      if w2 = [] then none
      else some (w1, w2, afterStars.drop w2.length)
    else none

/-- JS `replace(/(\d+|\w+)\s*\*\*\s*(\d+|\w+)/g, 'Math.pow($1, $2)')`
(source line 86). -/
def powerReplace (fuel : Nat) (s : List Char) : List Char :=
  match fuel, s with
  | 0, s => s
  | _ + 1, [] => []
  | f + 1, c :: rest =>
      match powerMatchAt (c :: rest) with
      | some (w1, w2, after) =>
          "Math.pow(".data ++ w1 ++ [',', ' '] ++ w2 ++ [')'] ++ powerReplace f after
      | none => c :: powerReplace f rest

/-- JS `replace(/'([^']*)'/g, '"$1"')` (source line 89): rewrite paired
single quotes (with no single quote between them) to double quotes. -/
def quoteNorm (fuel : Nat) (s : List Char) : List Char :=
  match fuel, s with
  | 0, s => s
  | _ + 1, [] => []
  | f + 1, c :: rest =>
      if c = '\'' then
        let inner := rest.takeWhile (· ≠ '\'')
        match rest.drop inner.length with
        | '\'' :: after => '"' :: inner ++ '"' :: quoteNorm f after
        | _ => c :: quoteNorm f rest
      else
        c :: quoteNorm f rest

/-- The regex-rewriting chain of the first implementation's `safeEval`
(source lines 72–89), translating Python-ish surface syntax into a
JavaScript expression string. -/
def pythonToJs (expression : String) : String :=
  let n := expression.length * 2 + 64
  let s0 := expression.data
  let s1 := replaceWordL n "True".data "true".data true false s0
  let s2 := replaceWordL n "False".data "false".data true false s1
  let s3 := replaceWordL n "None".data "null".data true false s2
  let s4 := replaceWordL n "print(".data "__print(".data false false s3
  let s5 := replaceWordL n "range(".data "__range(".data false false s4
  let s6 := replaceWordL n "len(".data "__len(".data false false s5
  let s7 := replaceNotL n false s6
  let s8 := replaceWordL n "and".data "&&".data true false s7
  let s9 := replaceWordL n "or".data "||".data true false s8
  let s10 := replaceAllL n "//".data "Math.floor".data s9
  -- `.replace(/\*\*/g, '**')` (source line 83) replaces `**` with itself.
  let s11 := powerReplace (n * 8) s10
  let s12 := quoteNorm (n * 8) s11
  .mk s12

end DeCode


namespace DeCode

/-! ## Model of the host JavaScript evaluation of the rewritten expression

`safeEval` builds `new Function(...names, "return <expr>;")` and calls it
with the environment's values plus the helper functions in scope.  The
model below tokenizes and evaluates the rewritten expression with
JavaScript's operator precedence, short-circuit `&&`/`||` (returning the
deciding operand, as JS does), and `ReferenceError`-style failures for
identifiers that are neither in scope nor one of the globals the
rewritten text can mention (`Math`, `true`, `false`, `null`). -/

inductive Tok where
  | num (n : Int)
  | str (s : String)
  | ident (s : String)
  | oper (s : String)
  | lparen
  | rparen
  | lbrack
  | rbrack
  | comma
  | dot
deriving Repr, DecidableEq

/-- A character that can start a JS identifier. -/
def isIdentStart (c : Char) : Bool := c.isAlpha || c = '_' || c = '$'

/-- A character that can continue a JS identifier. -/
def isIdentChar (c : Char) : Bool := isWordChar c || c = '$'

/-- Digits of a natural number literal. -/
def digitsToNat (ds : List Char) : Nat :=
  ds.foldl (fun acc c => acc * 10 + (c.toNat - '0'.toNat)) 0

/-- Tokenizer for the JavaScript expression subset the rewrite can emit.
Anything it cannot tokenize is a host `SyntaxError`, modelled as an
`Except.error` (the message text is model-chosen; no claim depends on it). -/
def tokenize (fuel : Nat) (s : List Char) : Except String (List Tok) :=
  match fuel, s with
  | 0, _ => .error "tokenizer fuel exhausted"
  | _ + 1, [] => .ok []
  | f + 1, c :: rest =>
      if isSpaceChar c then tokenize f rest
      else if c.isDigit then
        let ds := (c :: rest).takeWhile Char.isDigit
        (tokenize f ((c :: rest).drop ds.length)).map (fun ts => .num (digitsToNat ds) :: ts)
      else if c = '"' then
        let inner := rest.takeWhile (· ≠ '"')
        match rest.drop inner.length with
        | '"' :: after => (tokenize f after).map (fun ts => .str (.mk inner) :: ts)
        | _ => .error "Invalid or unexpected token"
      else if isIdentStart c then
        let w := (c :: rest).takeWhile isIdentChar
        (tokenize f ((c :: rest).drop w.length)).map (fun ts => .ident (.mk w) :: ts)
      else if startsWithL (c :: rest) "===".data then
        (tokenize f (rest.drop 2)).map (fun ts => .oper "===" :: ts)
      else if startsWithL (c :: rest) "!==".data then
        (tokenize f (rest.drop 2)).map (fun ts => .oper "!==" :: ts)
      else if startsWithL (c :: rest) "==".data then
        (tokenize f (rest.drop 1)).map (fun ts => .oper "==" :: ts)
      else if startsWithL (c :: rest) "!=".data then
        (tokenize f (rest.drop 1)).map (fun ts => .oper "!=" :: ts)
      else if startsWithL (c :: rest) "<=".data then
        (tokenize f (rest.drop 1)).map (fun ts => .oper "<=" :: ts)
      else if startsWithL (c :: rest) ">=".data then
        (tokenize f (rest.drop 1)).map (fun ts => .oper ">=" :: ts)
      else if startsWithL (c :: rest) "&&".data then
        (tokenize f (rest.drop 1)).map (fun ts => .oper "&&" :: ts)
      else if startsWithL (c :: rest) "||".data then
        (tokenize f (rest.drop 1)).map (fun ts => .oper "||" :: ts)
      else if startsWithL (c :: rest) "**".data then
        (tokenize f (rest.drop 1)).map (fun ts => .oper "**" :: ts)
      else if c = '(' then (tokenize f rest).map (fun ts => .lparen :: ts)
      else if c = ')' then (tokenize f rest).map (fun ts => .rparen :: ts)
      else if c = '[' then (tokenize f rest).map (fun ts => .lbrack :: ts)
      else if c = ']' then (tokenize f rest).map (fun ts => .rbrack :: ts)
      else if c = ',' then (tokenize f rest).map (fun ts => .comma :: ts)
      else if c = '.' then (tokenize f rest).map (fun ts => .dot :: ts)
      else if c = '+' ∨ c = '-' ∨ c = '*' ∨ c = '/' ∨ c = '%' ∨ c = '<' ∨
              c = '>' ∨ c = '!' then
        (tokenize f rest).map (fun ts => .oper (.mk [c]) :: ts)
      else .error ("Unexpected token " ++ .mk [c])

/-- Binary-operator precedence of the rewritten-JS subset, with
right-associativity flag. -/
def precOf : String → Option (Nat × Bool)
  | "||" => some (1, false)
  | "&&" => some (2, false)
  | "==" => some (3, false)
  | "!=" => some (3, false)
  | "===" => some (3, false)
  | "!==" => some (3, false)
  | "<" => some (4, false)
  | ">" => some (4, false)
  | "<=" => some (4, false)
  | ">=" => some (4, false)
  | "+" => some (5, false)
  | "-" => some (5, false)
  | "*" => some (6, false)
  | "/" => some (6, false)
  | "%" => some (6, false)
  | "**" => some (7, true)
  | _ => none

/-- JS `ToNumber` on the values the model meets (arrays/objects excluded:
the claims never coerce a container to a number, and the model reports it). -/
def toNumber : Value → Except String Int
  | .num n => .ok n
  | .bool b => .ok (if b then 1 else 0)
  | .null => .ok 0
  | .str s =>
      let t := trimJs s
      if t = "" then .ok 0
      else match t.data with
        | '-' :: ds => if ds ≠ [] ∧ ds.all Char.isDigit then .ok (-(digitsToNat ds : Int))
                       else .error "model: non-numeric string coerced to number"
        | ds => if ds.all Char.isDigit then .ok (digitsToNat ds)
                else .error "model: non-numeric string coerced to number"
  | .undef => .error "model: NaN arithmetic"
  | .nan => .error "model: NaN arithmetic"
  | _ => .error "model: container coerced to number"

/-- JS loose equality `==` on the value shapes the model meets. -/
def jsLooseEq : Value → Value → Except String Bool
  | .num a, .num b => .ok (a = b)
  | .str a, .str b => .ok (a = b)
  | .bool a, .bool b => .ok (a = b)
  | .null, .null => .ok true
  | .undef, .null => .ok true
  | .null, .undef => .ok true
  | .undef, .undef => .ok true
  | .null, _ => .ok false
  | _, .null => .ok false
  | .undef, _ => .ok false
  | _, .undef => .ok false
  | .nan, _ => .ok false
  | _, .nan => .ok false
  | a, b => do
      let x ← toNumber a
      let y ← toNumber b
      pure (x = y)

/-- Apply a (non-short-circuit) JS binary operator. -/
def jsBinop (op : String) (a b : Value) : Except String Value :=
  if op = "+" then
    match a, b with
    | .str x, y => .ok (.str (x ++ jsToString y))
    | x, .str y => .ok (.str (jsToString x ++ y))
    | x, y => do
        let m ← toNumber x
        let n ← toNumber y
        pure (.num (m + n))
  else if op = "-" then do
    let m ← toNumber a
    let n ← toNumber b
    pure (.num (m - n))
  else if op = "*" then do
    let m ← toNumber a
    let n ← toNumber b
    pure (.num (m * n))
  else if op = "/" then do
    let m ← toNumber a
    let n ← toNumber b
    if n ≠ 0 ∧ n ∣ m then pure (.num (m / n))
    else .error "model: non-integral division"
  else if op = "%" then do
    let m ← toNumber a
    let n ← toNumber b
    if n ≠ 0 then pure (.num (Int.tmod m n)) else .error "model: NaN arithmetic"
  else if op = "**" then do
    let m ← toNumber a
    let n ← toNumber b
    if n ≥ 0 then pure (.num (m ^ n.toNat)) else .error "model: fractional power"
  else if op = "==" then (jsLooseEq a b).map Value.bool
  else if op = "!=" then (jsLooseEq a b).map (fun r => Value.bool (!r))
  else if op = "<" ∨ op = ">" ∨ op = "<=" ∨ op = ">=" then
    match a, b with
    | .str x, .str y =>
        .ok (.bool (if op = "<" then decide (x < y)
                    else if op = ">" then decide (y < x)
                    else if op = "<=" then !decide (y < x)
                    else !decide (x < y)))
    | x, y => do
        let m ← toNumber x
        let n ← toNumber y
        pure (.bool (if op = "<" then decide (m < n)
                     else if op = ">" then decide (m > n)
                     else if op = "<=" then decide (m ≤ n)
                     else decide (m ≥ n)))
  else if op = "===" then
    match a, b with
    | .num x, .num y => .ok (.bool (x = y))
    | .str x, .str y => .ok (.bool (x = y))
    | .bool x, .bool y => .ok (.bool (x = y))
    | .null, .null => .ok (.bool true)
    | .undef, .undef => .ok (.bool true)
    | _, _ => .ok (.bool false)
  else if op = "!==" then
    match a, b with
    | .num x, .num y => .ok (.bool (x ≠ y))
    | .str x, .str y => .ok (.bool (x ≠ y))
    | .bool x, .bool y => .ok (.bool (x ≠ y))
    | .null, .null => .ok (.bool false)
    | .undef, .undef => .ok (.bool false)
    | _, _ => .ok (.bool true)
  else .error ("model: unsupported operator " ++ op)

/-- The helper names that `safeEval` spreads into scope after the user
variables (so they shadow user bindings of the same name). -/
def isHelperName (s : String) : Bool :=
  s = "__print" ∨ s = "__repr" ∨ s = "__range" ∨ s = "__len"

/-- Apply a helper built-in to evaluated arguments. -/
def applyHelper (name : String) (args : List Value) : Except String Value :=
  if name = "__print" then .ok (.str (printJoin args))
  else if name = "__repr" then
    match args with
    | v :: _ => .ok (.str (reprValue v))
    | [] => .ok (.str (reprValue .undef))
  else if name = "__range" then jsRange args
  else if name = "__len" then
    match args with
    | v :: _ => jsLen v
    | [] => .error "object of type 'undefined' has no len()"
  else .error (name ++ " is not a function")

mutual

/-- Evaluate a full expression (precedence ≥ `minPrec`).  `live = false`
parses without evaluating, for the unevaluated arm of `&&`/`||`. -/
def parseExpr (fuel : Nat) (live : Bool) (env : Env) (minPrec : Nat)
    (toks : List Tok) : Except String (Value × List Tok) :=
  match fuel with
  | 0 => .error "parser fuel exhausted"
  | f + 1 => do
      let (lhs, rest) ← parsePrimary f live env toks
      parseBinRest f live env minPrec lhs rest

/-- Continue parsing binary operators after a left operand. -/
def parseBinRest (fuel : Nat) (live : Bool) (env : Env) (minPrec : Nat)
    (lhs : Value) (toks : List Tok) : Except String (Value × List Tok) :=
  match fuel with
  | 0 => .error "parser fuel exhausted"
  | f + 1 =>
      match toks with
      | .oper op :: rest =>
          match precOf op with
          | some (p, rightAssoc) =>
              if p < minPrec then .ok (lhs, toks)
              else
                let nextMin := if rightAssoc then p else p + 1
                if op = "&&" then do
                  let keepRight := live ∧ truthy lhs
                  let (rhs, rest') ← parseExpr f (live && truthy lhs) env nextMin rest
                  let v := if keepRight then rhs else lhs
                  parseBinRest f live env minPrec v rest'
                else if op = "||" then do
                  let keepLeft := truthy lhs
                  let (rhs, rest') ← parseExpr f (live && !truthy lhs) env nextMin rest
                  let v := if keepLeft then lhs else rhs
                  parseBinRest f live env minPrec v rest'
                else do
                  let (rhs, rest') ← parseExpr f live env nextMin rest
                  if live then do
                    let v ← jsBinop op lhs rhs
                    parseBinRest f live env minPrec v rest'
                  else parseBinRest f live env minPrec Value.undef rest'
          | none => .ok (lhs, toks)
      | _ => .ok (lhs, toks)

/-- Evaluate a primary expression (literal, identifier, call, parens,
unary operator, array literal). -/
def parsePrimary (fuel : Nat) (live : Bool) (env : Env)
    (toks : List Tok) : Except String (Value × List Tok) :=
  match fuel with
  | 0 => .error "parser fuel exhausted"
  | f + 1 =>
      match toks with
      | .num n :: rest => .ok (.num n, rest)
      | .str s :: rest => .ok (.str s, rest)
      | .oper "!" :: rest => do
          let (v, rest') ← parseUnaryOperand f live env rest
          .ok (.bool (!truthy v), rest')
      | .oper "-" :: rest => do
          let (v, rest') ← parseUnaryOperand f live env rest
          if live then do
            let n ← toNumber v
            pure (.num (-n), rest')
          else pure (Value.undef, rest')
      | .lparen :: rest => do
          let (v, rest') ← parseExpr f live env 0 rest
          match rest' with
          | .rparen :: rest'' => .ok (v, rest'')
          | _ => .error "missing ) after argument list"
      | .lbrack :: rest => parseArrayItems f live env rest []
      | .ident "true" :: rest => .ok (.bool true, rest)
      | .ident "false" :: rest => .ok (.bool false, rest)
      | .ident "null" :: rest => .ok (.null, rest)
      | .ident "Math" :: .dot :: .ident m :: .lparen :: rest => do
          let (args, rest') ← parseArgs f live env rest []
          if live then
            if m = "pow" then
              match args with
              | [a, b] => (jsBinop "**" a b).map (fun v => (v, rest'))
              | _ => .error "model: Math arity"
            else if m = "floor" then
              match args with
              | [a] => (toNumber a).map (fun n => (Value.num n, rest'))
              | _ => .error "model: Math arity"
            else .error ("Math." ++ m ++ " is not a function")
          else pure (Value.undef, rest')
      | .ident "Math" :: .dot :: .ident _ :: rest =>
          -- a bare `Math.floor` used as an operand never occurs in a
          -- position the parser accepts; a following token that is not
          -- `(` leaves the member reference as an (unused) value
          .ok (Value.undef, rest)
      | .ident name :: .lparen :: rest => do
          let (args, rest') ← parseArgs f live env rest []
          if !live then pure (Value.undef, rest')
          else if isHelperName name then (applyHelper name args).map (fun v => (v, rest'))
          else match lookupEnv env name with
            | some (.func _ _ _ _) => .error (name ++ " is not a function")
            | some _ => .error (name ++ " is not a function")
            | none => .error (name ++ " is not defined")
      | .ident name :: rest =>
          if !live then .ok (Value.undef, rest)
          else if isHelperName name then .error ("model: bare helper reference " ++ name)
          else match lookupEnv env name with
            | some v => .ok (v, rest)
            | none => .error (name ++ " is not defined")
      | _ => .error "Unexpected token"

/-- Operand of a unary operator: a primary expression (tight binding). -/
def parseUnaryOperand (fuel : Nat) (live : Bool) (env : Env)
    (toks : List Tok) : Except String (Value × List Tok) :=
  match fuel with
  | 0 => .error "parser fuel exhausted"
  | f + 1 => parsePrimary f live env toks

/-- Comma-separated call arguments up to the closing parenthesis. -/
def parseArgs (fuel : Nat) (live : Bool) (env : Env) (toks : List Tok)
    (acc : List Value) : Except String (List Value × List Tok) :=
  match fuel with
  | 0 => .error "parser fuel exhausted"
  | f + 1 =>
      match toks with
      | .rparen :: rest => .ok (acc.reverse, rest)
      | _ => do
          let (v, rest) ← parseExpr f live env 0 toks
          match rest with
          | .comma :: rest' => parseArgs f live env rest' (v :: acc)
          | .rparen :: rest' => .ok ((v :: acc).reverse, rest')
          | _ => .error "missing ) after argument list"

/-- Comma-separated array-literal elements up to the closing bracket. -/
def parseArrayItems (fuel : Nat) (live : Bool) (env : Env) (toks : List Tok)
    (acc : List Value) : Except String (Value × List Tok) :=
  match fuel with
  | 0 => .error "parser fuel exhausted"
  | f + 1 =>
      match toks with
      | .rbrack :: rest => .ok (.list acc.reverse, rest)
      | _ => do
          let (v, rest) ← parseExpr f live env 0 toks
          match rest with
          | .comma :: rest' => parseArrayItems f live env rest' (v :: acc)
          | .rbrack :: rest' => .ok (.list ((v :: acc).reverse), rest')
          | _ => .error "missing ] after element list"

end

/-- Evaluate a rewritten-JavaScript expression string against an
environment (the host's `new Function(..., 'return ' + expr + ';')(...)`). -/
def jsEval (src : String) (env : Env) : Except String Value := do
  let toks ← tokenize (src.length + 1) src.data
  -- an all-whitespace expression makes the function body `return ;`,
  -- which evaluates to `undefined` rather than throwing
  if toks.isEmpty then pure .undef
  else
    let (v, rest) ← parseExpr (toks.length * 4 + 16) true env 0 toks
    match rest with
    | [] => pure v
    | _ => .error "Unexpected token after expression"

/-- The first implementation's `safeEval` (source lines 69–98): rewrite the
Python-ish expression to JavaScript, evaluate it, and wrap any failure in
an `Error evaluating: <expr> - <msg>` message. -/
def safeEval (expression : String) (vars : Env) : Except String Value :=
  match jsEval (pythonToJs expression) vars with
  | .ok v => .ok v
  | .error m => .error ("Error evaluating: " ++ expression ++ " - " ++ m)

end DeCode

namespace DeCode

/-! ## Character constants

Named to keep quote/brace characters out of literal position. -/

def squoteChar : Char := Char.ofNat 39
def dquoteChar : Char := Char.ofNat 34
def lbraceChar : Char := Char.ofNat 123
def rbraceChar : Char := Char.ofNat 125

/-! ## The comma splitter shared by the argument-parsing sites

Source lines 253–281, 518–546 and 621–648 contain three identical copies
of a scanner that splits a string on top-level commas, tracking
bracket/parenthesis/brace depth and single/double-quoted strings. -/

def commaSplitGo : List Char → List Char → Int → Bool → Char → List String → List String
  | [], current, _, _, _, acc =>
      let t := trimJs (.mk current.reverse)
      if t ≠ "" then (t :: acc).reverse else acc.reverse
  | c :: rest, current, depth, inString, stringChar, acc =>
      if !inString && (c = dquoteChar || c = squoteChar) then
        commaSplitGo rest (c :: current) depth true c acc
      else if inString && c = stringChar then
        commaSplitGo rest (c :: current) depth false stringChar acc
      else if !inString then
        if c = '(' || c = '[' || c = lbraceChar then
          commaSplitGo rest (c :: current) (depth + 1) inString stringChar acc
        else if c = ')' || c = ']' || c = rbraceChar then
          commaSplitGo rest (c :: current) (depth - 1) inString stringChar acc
        else if c = ',' && depth = 0 then
          commaSplitGo rest [] depth inString stringChar (trimJs (.mk current.reverse) :: acc)
        else commaSplitGo rest (c :: current) depth inString stringChar acc
      else commaSplitGo rest (c :: current) depth inString stringChar acc

/-- Split a call's argument text on top-level commas (trimmed parts). -/
def commaSplitTop (s : String) : List String :=
  commaSplitGo s.data [] 0 false ' ' []

/-! ## `parseMultiLineStructure` (source lines 100–130) -/

def countBrackets (s : String) (brace bracket : Int) : Int × Int :=
  s.data.foldl
    (fun (p : Int × Int) c =>
      if c = lbraceChar then (p.1 + 1, p.2)
      else if c = rbraceChar then (p.1 - 1, p.2)
      else if c = '[' then (p.1, p.2 + 1)
      else if c = ']' then (p.1, p.2 - 1)
      else p)
    (brace, bracket)

def multiLineGo : List LineData → Nat → String → Int → Int → String × Nat
  | [], i, structureAcc, _, _ => (structureAcc, i)
  | l :: rest, i, structureAcc, brace, bracket =>
      let s' := structureAcc ++ l.trimmed
      let (b', k') := countBrackets l.trimmed brace bracket
      if b' = 0 && k' = 0 then (s', i)
      else
        match rest with
        | [] => (s', i + 1)
        | _ :: _ => multiLineGo rest (i + 1) (s' ++ " ") b' k'

/-- Join the lines of a multi-line `[...]`/`{...}` literal, counting
brackets until balanced; returns the joined text and the end index. -/
def parseMultiLineStructure (lines : List LineData) (startIndex : Nat) : String × Nat :=
  multiLineGo (lines.drop startIndex) startIndex "" 0 0

/-! ## `JSON.parse` model

Strict JSON over the shapes the interpreter's literals produce: objects,
arrays, double-quoted strings without escapes, integer numbers, `true`,
`false`, `null`.  (Real `JSON.parse` also accepts escapes and fractional
numbers; no claim exercises either, and a text the model rejects simply
takes the source's own `catch` fallback.) -/

mutual

def jsonParseVal (fuel : Nat) (s : List Char) : Option (Value × List Char) :=
  match fuel with
  | 0 => none
  | f + 1 =>
      let s := s.dropWhile isSpaceChar
      match s with
      | [] => none
      | c :: rest =>
          if c = dquoteChar then
            let inner := rest.takeWhile (fun d => d ≠ dquoteChar ∧ d ≠ '\\')
            match rest.drop inner.length with
            | d :: after => if d = dquoteChar then some (.str (.mk inner), after) else none
            | [] => none
          else if c = '[' then jsonParseItems f (rest.dropWhile isSpaceChar) []
          else if c = lbraceChar then jsonParseFields f (rest.dropWhile isSpaceChar) []
          else if startsWithL (c :: rest) "true".data then some (.bool true, (c :: rest).drop 4)
          else if startsWithL (c :: rest) "false".data then some (.bool false, (c :: rest).drop 5)
          else if startsWithL (c :: rest) "null".data then some (.null, (c :: rest).drop 4)
          else if c = '-' then
            let ds := rest.takeWhile Char.isDigit
            if ds = [] then none
            else some (.num (-(digitsToNat ds : Int)), rest.drop ds.length)
          else if c.isDigit then
            let ds := (c :: rest).takeWhile Char.isDigit
            some (.num (digitsToNat ds), (c :: rest).drop ds.length)
          else none

def jsonParseItems (fuel : Nat) (s : List Char) (acc : List Value) :
    Option (Value × List Char) :=
  match fuel with
  | 0 => none
  | f + 1 =>
      match s with
      | ']' :: rest =>
          if acc.isEmpty then some (.list [], rest) else none
      | _ => do
          let (v, rest) ← jsonParseVal f s
          match rest.dropWhile isSpaceChar with
          | ',' :: rest' => jsonParseItems f (rest'.dropWhile isSpaceChar) (v :: acc)
          | ']' :: rest' => some (.list (v :: acc).reverse, rest')
          | _ => none

def jsonParseFields (fuel : Nat) (s : List Char) (acc : List (String × Value)) :
    Option (Value × List Char) :=
  match fuel with
  | 0 => none
  | f + 1 =>
      match s with
      | c :: rest =>
          if c = rbraceChar && acc.isEmpty then some (.dict [], rest)
          else if c = dquoteChar then
            let key := rest.takeWhile (fun d => d ≠ dquoteChar ∧ d ≠ '\\')
            match rest.drop key.length with
            | d :: afterKey =>
                if d = dquoteChar then
                  match afterKey.dropWhile isSpaceChar with
                  | ':' :: afterColon => do
                      let (v, rest') ← jsonParseVal f afterColon
                      match rest'.dropWhile isSpaceChar with
                      | ',' :: rest'' =>
                          jsonParseFields f (rest''.dropWhile isSpaceChar) ((.mk key, v) :: acc)
                      | e :: rest'' =>
                          if e = rbraceChar then some (.dict ((.mk key, v) :: acc).reverse, rest'')
                          else none
                      | [] => none
                  | _ => none
                else none
            | [] => none
          else none
      | [] => none

end

/-- `JSON.parse` on a whole string (`none` models a thrown `SyntaxError`). -/
def jsonParse (s : String) : Option Value := do
  let (v, rest) ← jsonParseVal (s.length + 1) s.data
  if rest.dropWhile isSpaceChar = [] then some v else none

/-- JS `replace(/'/g, '"')`. -/
def singleToDouble (s : String) : String :=
  .mk (s.data.map (fun c => if c = squoteChar then dquoteChar else c))

/-- JS `replace(/(\w+):/g, '"$1":')`: double-quote bare words standing
directly before a colon. -/
def keyQuote (fuel : Nat) (s : List Char) : List Char :=
  match fuel, s with
  | 0, s => s
  | _ + 1, [] => []
  | f + 1, c :: rest =>
      let w := (c :: rest).takeWhile isWordChar
      if w ≠ [] then
        match (c :: rest).drop w.length with
        | ':' :: after => dquoteChar :: w ++ dquoteChar :: ':' :: keyQuote f after
        | _ => c :: keyQuote f rest
      else c :: keyQuote f rest

end DeCode

namespace DeCode

/-! ## The statement-classification regexes

Each `match`/`test` the source applies to a line or expression is
embedded as a scanner with the same observable behaviour (leftmost match,
greedy word runs, greedy `(.*)` reaching the last `)`, lazy `(.*?)`
stopping at the first viable continuation). -/

/-- Split at the last `)` of `s`: returns the part before it and after it. -/
def lastCloseSplit (s : List Char) : Option (List Char × List Char) :=
  match (s.reverse.dropWhile (· ≠ ')')) with
  | [] => none
  | _ :: beforeRev => some (beforeRev.reverse, (s.reverse.takeWhile (· ≠ ')')).reverse)

/-- The operators whose presence excludes the plain-assignment branch
(first implementation, source line 230). -/
def assignExcludedOps : List String := ["==", "!=", "<=", ">=", "+=", "-=", "*=", "/=", "%="]

/-- The shorter exclusion list of the second implementation (line 2145). -/
def assignExcludedOps2 : List String := ["==", "!=", "<=", ">=", "+="]

/-- Plain-assignment branch test: contains `=` and none of the excluded
operator texts. -/
def assignTest (ops : List String) (trimmed : String) : Bool :=
  includesStr trimmed "=" && !(ops.any (fun op => includesStr trimmed op))

/-- Is `c` one of the augmented-assignment operator characters. -/
def isAugOp (c : Char) : Bool := c = '+' || c = '-' || c = '*' || c = '/' || c = '%'

/-- Leftmost match of `/(\w+)\s*([\+\-\*\/%])=(.+)/` (source line 394):
word run, optional spaces, operator, `=`, then a non-empty rest.
Scanning is by start position of the word run. -/
def augExtract : List Char → Option (String × Char × String)
  | [] => none
  | c :: rest =>
      let attempt :=
        let w := (c :: rest).takeWhile isWordChar
        if w.isEmpty then none
        else
          let afterW := ((c :: rest).drop w.length).dropWhile (fun d => d = ' ' || d = '\t')
          match afterW with
          | o :: '=' :: tail =>
              if isAugOp o ∧ !tail.isEmpty then some (String.mk w, o, String.mk tail)
              else none
          | _ => none
      match attempt with
      | some r => some r
      | none => augExtract rest

/-- Test of `/[\w]+\s*[\+\-\*\/%]=\s*.+/` (source line 393); it succeeds
exactly when the extraction succeeds. -/
def augTest (trimmed : String) : Bool := (augExtract trimmed.data).isSome

/-- Test of `/\w+\.(name1|name2|...)\(/`: some word character followed by
a dot, one of the method names and an opening parenthesis. -/
def methodCallTestGo (names : List String) : List Char → Bool
  | [] => false
  | c :: rest =>
      (isWordChar c &&
        (match rest with
         | '.' :: tail => names.any (fun n => startsWithL tail (n ++ "(").data)
         | _ => false)) ||
      methodCallTestGo names rest

def methodCallTest (names : List String) (trimmed : String) : Bool :=
  methodCallTestGo names trimmed.data

/-- The list-method names of the branch test at source line 439. -/
def listOpNames : List String := ["append", "extend", "remove", "pop", "insert", "index", "count"]

/-- The dict-method names of the branch test at source line 2308. -/
def dictOpNames : List String := ["get", "keys", "values", "items", "update", "pop"]

/-- Leftmost match of `/(\w+)\.(\w+)\((.*)\)/`: object name, method name,
and the argument text reaching the last `)` of the line. -/
def dotCallExtract : List Char → Option (String × String × String)
  | [] => none
  | c :: rest =>
      let attempt :=
        let w1 := (c :: rest).takeWhile isWordChar
        if w1.isEmpty then none
        else
          match (c :: rest).drop w1.length with
          | '.' :: tail =>
              let w2 := tail.takeWhile isWordChar
              if w2.isEmpty then none
              else
                match tail.drop w2.length with
                | '(' :: argsAndRest =>
                    match lastCloseSplit argsAndRest with
                    | some (args, _) => some (String.mk w1, String.mk w2, String.mk args)
                    | none => none
                | _ => none
          | _ => none
      match attempt with
      | some r => some r
      | none => dotCallExtract rest

/-- Test of `/\w+\(.*\)/`: a word character directly before `(` with a
`)` somewhere after. -/
def funcCallAnyTestGo : List Char → Bool
  | [] => false
  | c :: rest =>
      (isWordChar c &&
        (match rest with
         | '(' :: tail => tail.contains ')'
         | _ => false)) ||
      funcCallAnyTestGo rest

def funcCallAnyTest (s : String) : Bool := funcCallAnyTestGo s.data

/-- Leftmost match of `/(\w+)\((.*)\)/`: callee name and argument text
reaching the last `)`. -/
def funcCallExtract : List Char → Option (String × String)
  | [] => none
  | c :: rest =>
      let attempt :=
        let w := (c :: rest).takeWhile isWordChar
        if w.isEmpty then none
        else
          match (c :: rest).drop w.length with
          | '(' :: argsAndRest =>
              match lastCloseSplit argsAndRest with
              | some (args, _) => some (String.mk w, String.mk args)
              | none => none
          | _ => none
      match attempt with
      | some r => some r
      | none => funcCallExtract rest

/-- Anchored match of `/^(\w+)\((.*)\)$/` (source line 614). -/
def standaloneCallExtract (s : String) : Option (String × String) :=
  let cs := s.data
  let w := cs.takeWhile isWordChar
  if w.isEmpty then none
  else
    match cs.drop w.length with
    | '(' :: tail =>
        match tail.reverse with
        | ')' :: innerRev => some (String.mk w, String.mk innerRev.reverse)
        | _ => none
    | _ => none

/-- Test of `/^\w+\(.*\)$/` (source line 613). -/
def standaloneCallTest (s : String) : Bool := (standaloneCallExtract s).isSome

/-- One attempt of `for\s+(\w+)\s+in\s+(.*?):` at the head of the input. -/
def forMatchAt (s : List Char) : Option (String × String) :=
  if startsWithL s "for".data then
    let t1 := s.drop 3
    let sp1 := t1.takeWhile isSpaceChar
    if sp1.isEmpty then none
    else
      let t2 := t1.drop sp1.length
      let w := t2.takeWhile isWordChar
      if w.isEmpty then none
      else
        let t3 := t2.drop w.length
        let sp2 := t3.takeWhile isSpaceChar
        if sp2.isEmpty then none
        else
          let t4 := t3.drop sp2.length
          if startsWithL t4 "in".data then
            let t5 := t4.drop 2
            let sp3 := t5.takeWhile isSpaceChar
            if sp3.isEmpty then none
            else
              let t6 := t5.drop sp3.length
              let body := t6.takeWhile (· ≠ ':')
              if (t6.drop body.length).isEmpty then none
              else some (String.mk w, String.mk body)
          else none
  else none

/-- Leftmost match of `/for\s+(\w+)\s+in\s+(.*?):/` (source line 675):
loop variable and iterable text up to the first colon. -/
def forMatchL : List Char → Option (String × String)
  | [] => none
  | c :: rest =>
      match forMatchAt (c :: rest) with
      | some r => some r
      | none => forMatchL rest

def forMatch (trimmed : String) : Option (String × String) := forMatchL trimmed.data

/-- Find the first index of the two-character sequence `):` in `s`. -/
def paramsUpToCloseColon : List Char → Option (List Char)
  | [] => none
  | ')' :: ':' :: _ => some []
  | c :: rest => (paramsUpToCloseColon rest).map (c :: ·)

/-- One attempt of `def\s+(\w+)\((.*?)\):` at the head of the input. -/
def defMatchAt (s : List Char) : Option (String × String) :=
  if startsWithL s "def".data then
    let t1 := s.drop 3
    let sp1 := t1.takeWhile isSpaceChar
    if sp1.isEmpty then none
    else
      let t2 := t1.drop sp1.length
      let w := t2.takeWhile isWordChar
      if w.isEmpty then none
      else
        match t2.drop w.length with
        | '(' :: tail =>
            (paramsUpToCloseColon tail).map (fun ps => (String.mk w, String.mk ps))
        | _ => none
  else none

/-- Leftmost match of `/def\s+(\w+)\((.*?)\):/` (source line 586). -/
def defMatchL : List Char → Option (String × String)
  | [] => none
  | c :: rest =>
      match defMatchAt (c :: rest) with
      | some r => some r
      | none => defMatchL rest

def defMatch (trimmed : String) : Option (String × String) := defMatchL trimmed.data

/-- Leftmost match of `/print\((.*)\)/` (source line 513): the argument
text between the first `print(` and the last `)`. -/
def printExtractL : List Char → Option String
  | [] => none
  | c :: rest =>
      if startsWithL (c :: rest) "print(".data then
        match lastCloseSplit ((c :: rest).drop 6) with
        | some (args, _) => some (String.mk args)
        | none => none
      else printExtractL rest

def printExtract (trimmed : String) : Option String := printExtractL trimmed.data

/-! ## List-comprehension syntax (source lines 133–168, 238) -/

/-- One attempt of the sequence `\s+for\s+(\w+)\s+in\s+` at the head of
the input; returns the loop variable and the rest after `in`'s spaces. -/
def compSeqAt (s : List Char) : Option (String × List Char) :=
  let sp1 := s.takeWhile isSpaceChar
  if sp1.isEmpty then none
  else
    let t1 := s.drop sp1.length
    if startsWithL t1 "for".data then
      let t2 := t1.drop 3
      let sp2 := t2.takeWhile isSpaceChar
      if sp2.isEmpty then none
      else
        let t3 := t2.drop sp2.length
        let w := t3.takeWhile isWordChar
        if w.isEmpty then none
        else
          let t4 := t3.drop w.length
          let sp3 := t4.takeWhile isSpaceChar
          if sp3.isEmpty then none
          else
            let t5 := t4.drop sp3.length
            if startsWithL t5 "in".data then
              let t6 := t5.drop 2
              let sp4 := t6.takeWhile isSpaceChar
              if sp4.isEmpty then none
              else some (String.mk w, t6.drop sp4.length)
            else none
    else none

/-- Earliest (lazy) occurrence of the `for ... in` sequence; returns the
prefix before it, the loop variable, and the rest after it. -/
def compSeqSearch (fuel : Nat) (acc : List Char) (s : List Char) :
    Option (List Char × String × List Char) :=
  match fuel with
  | 0 => none
  | f + 1 =>
      match compSeqAt s with
      | some (w, rest) => some (acc.reverse, w, rest)
      | none =>
          match s with
          | [] => none
          | c :: rest => compSeqSearch f (c :: acc) rest

/-- Lazy scan for the iterable part: the earliest split point where the
remainder is either `]`, or `\s+if\s+<cond>]` (the optional condition
group, tried first as the regex prefers it). -/
def compTailSearch (fuel : Nat) (acc : List Char) (s : List Char) :
    Option (List Char × Option (List Char)) :=
  match fuel with
  | 0 => none
  | f + 1 =>
      let ifAttempt :=
        let sp1 := s.takeWhile isSpaceChar
        if sp1.isEmpty then none
        else
          let t1 := s.drop sp1.length
          if startsWithL t1 "if".data then
            let t2 := t1.drop 2
            let sp2 := t2.takeWhile isSpaceChar
            if sp2.isEmpty then none
            else
              let t3 := t2.drop sp2.length
              let cond := t3.takeWhile (· ≠ ']')
              if (t3.drop cond.length).isEmpty then none
              else some (acc.reverse, some cond)
          else none
      match ifAttempt with
      | some r => some r
      | none =>
          match s with
          | ']' :: _ => some (acc.reverse, none)
          | [] => none
          | c :: rest => compTailSearch f (c :: acc) rest

/-- Match of
`/\[(.*?)\s+for\s+(\w+)\s+in\s+(.*?)(?:\s+if\s+(.*?))?\]/`
(source line 135): element expression, loop variable, iterable text and
optional condition text. -/
def listCompExtract (expression : String) : Option (String × String × String × Option String) :=
  let cs := expression.data
  let beforeBracket := cs.takeWhile (· ≠ '[')
  match cs.drop beforeBracket.length with
  | '[' :: inner => do
      let (expr, w, rest) ← compSeqSearch (inner.length + 1) [] inner
      let (iter, cond) ← compTailSearch (rest.length + 1) [] rest
      some (String.mk expr, w, String.mk iter, cond.map String.mk)
  | _ => none

/-- The detection regex `/\[.*?\s+for\s+\w+\s+in\s+.*?\]/` of source line
238; it succeeds exactly when the capture regex does. -/
def listCompDetect (expression : String) : Bool := (listCompExtract expression).isSome

end DeCode

namespace DeCode

/-! ## `JSON.parse(JSON.stringify(...))` deep copy

Used by the source for every step's `variables` snapshot and for
function closures.  On the pure value model the round trip rebuilds the
structure; `NaN` becomes `null` and `undefined` array elements become
`null` exactly as `JSON.stringify` renders them.  The plain objects the
source uses as function values consist of JSON-clean fields, so they
survive the round trip with their `isFunction` marker (the model keeps
them as `Value.func`, which is observationally the same object shape). -/

mutual

def jsonDeepCopy : Value → Value
  | .num n => .num n
  | .str s => .str s
  | .bool b => .bool b
  | .null => .null
  | .undef => .null
  | .nan => .null
  | .list xs => .list (jsonDeepCopyItems xs)
  | .dict entries => .dict (jsonDeepCopyEntries entries)
  | .func n p b c => .func n p b (jsonDeepCopyEntries c)

def jsonDeepCopyItems : List Value → List Value
  | [] => []
  | x :: rest => jsonDeepCopy x :: jsonDeepCopyItems rest

def jsonDeepCopyEntries : List (String × Value) → List (String × Value)
  | [] => []
  | (k, v) :: rest => (k, jsonDeepCopy v) :: jsonDeepCopyEntries rest

end

/-- Deep-copy an environment (`JSON.parse(JSON.stringify(vars))`);
object keys whose value is `undefined` are dropped by `JSON.stringify`. -/
def deepCopyEnv (env : Env) : Env :=
  jsonDeepCopyEntries (env.filter (fun kv => match kv.2 with | .undef => false | _ => true))

/-! ## Steps -/

/-- One record of the execution trace.  Constructors carry exactly the
action-specific fields the source stores in the pushed step objects
(`variables` is spelled `vars` and `variable` is spelled `varName`,
since both words are reserved in Lean). -/
inductive Step where
  | assignStep (line : Nat) (reassigned : Bool) (varName : String) (value : Value)
      (oldValue : Option Value) (expression : String) (vars : Env) (output : List String)
  | augmentedAssignStep (line : Nat) (varName : String) (operator : Char) (value : Value)
      (oldValue : Option Value) (rightValue : Value) (vars : Env) (output : List String)
  | listOperationStep (line : Nat) (list : String) (operation : String) (value : Value)
      (oldValue : Value) (operationResult : String) (resultValue : Value)
      (vars : Env) (output : List String)
  | dictOperationStep (line : Nat) (dict : String) (operation : String) (value : Value)
      (oldValue : Value) (operationResult : String) (resultValue : Value)
      (vars : Env) (output : List String)
  | printStep (line : Nat) (value : List Value) (outputText : String)
      (vars : Env) (output : List String)
  | functionDefinitionStep (line : Nat) (functionName : String) (params : List String)
      (bodyLines : Nat) (vars : Env) (output : List String)
  | functionCallStep (line : Nat) (functionName : String) (args : List Value)
      (returnValue : Value) (vars : Env) (output : List String)
  | forLoopStartStep (line : Nat) (iterVar : String) (iterable : Value)
      (loopBody : Option (List Nat)) (vars : Env) (output : List String)
  | forLoopIterationStep (line : Nat) (iterVar : String) (currentValue : Value)
      (iterationIndex : Nat) (totalIterations : Nat) (vars : Env) (output : List String)
  | forLoopEndStep (line : Nat) (iterVar : String) (vars : Env) (output : List String)
  | ifStatementStep (line : Nat) (condition : String) (conditionResult : Bool)
      (vars : Env) (output : List String)
  | whileLoopStartStep (line : Nat) (condition : String) (conditionResult : Bool)
      (vars : Env) (output : List String)
  | executeStep (line : Nat) (code : String) (vars : Env) (output : List String)
  | errorStep (line : Nat) (error : String) (vars : Env) (output : List String)
  | controlStructureStartStep (line : Nat) (code : String) (vars : Env) (output : List String)
  | controlStructureEndStep (line : Nat) (code : String) (vars : Env) (output : List String)

/-- The `action` string of a step. -/
def Step.action : Step → String
  | .assignStep _ re _ _ _ _ _ _ => if re then "reassign" else "assign"
  | .augmentedAssignStep _ _ _ _ _ _ _ _ => "augmented_assign"
  | .listOperationStep _ _ _ _ _ _ _ _ _ => "list_operation"
  | .dictOperationStep _ _ _ _ _ _ _ _ _ => "dict_operation"
  | .printStep _ _ _ _ _ => "print"
  | .functionDefinitionStep _ _ _ _ _ _ => "function_definition"
  | .functionCallStep _ _ _ _ _ _ => "function_call"
  | .forLoopStartStep _ _ _ _ _ _ => "for_loop_start"
  | .forLoopIterationStep _ _ _ _ _ _ _ => "for_loop_iteration"
  | .forLoopEndStep _ _ _ _ => "for_loop_end"
  | .ifStatementStep _ _ _ _ _ => "if_statement"
  | .whileLoopStartStep _ _ _ _ _ => "while_loop_start"
  | .executeStep _ _ _ _ => "execute"
  | .errorStep _ _ _ _ => "error"
  | .controlStructureStartStep _ _ _ _ => "control_structure_start"
  | .controlStructureEndStep _ _ _ _ => "control_structure_end"

/-- The `variables` snapshot stored in a step. -/
def Step.varsOf : Step → Env
  | .assignStep _ _ _ _ _ _ v _ => v
  | .augmentedAssignStep _ _ _ _ _ _ v _ => v
  | .listOperationStep _ _ _ _ _ _ _ v _ => v
  | .dictOperationStep _ _ _ _ _ _ _ v _ => v
  | .printStep _ _ _ v _ => v
  | .functionDefinitionStep _ _ _ _ v _ => v
  | .functionCallStep _ _ _ _ v _ => v
  | .forLoopStartStep _ _ _ _ v _ => v
  | .forLoopIterationStep _ _ _ _ _ v _ => v
  | .forLoopEndStep _ _ v _ => v
  | .ifStatementStep _ _ _ v _ => v
  | .whileLoopStartStep _ _ _ v _ => v
  | .executeStep _ _ v _ => v
  | .errorStep _ _ v _ => v
  | .controlStructureStartStep _ _ v _ => v
  | .controlStructureEndStep _ _ v _ => v

/-- The `output` snapshot stored in a step. -/
def Step.outputOf : Step → List String
  | .assignStep _ _ _ _ _ _ _ o => o
  | .augmentedAssignStep _ _ _ _ _ _ _ o => o
  | .listOperationStep _ _ _ _ _ _ _ _ o => o
  | .dictOperationStep _ _ _ _ _ _ _ _ o => o
  | .printStep _ _ _ _ o => o
  | .functionDefinitionStep _ _ _ _ _ o => o
  | .functionCallStep _ _ _ _ _ o => o
  | .forLoopStartStep _ _ _ _ _ o => o
  | .forLoopIterationStep _ _ _ _ _ _ o => o
  | .forLoopEndStep _ _ _ o => o
  | .ifStatementStep _ _ _ _ o => o
  | .whileLoopStartStep _ _ _ _ o => o
  | .executeStep _ _ _ o => o
  | .errorStep _ _ _ o => o
  | .controlStructureStartStep _ _ _ o => o
  | .controlStructureEndStep _ _ _ o => o

end DeCode

namespace DeCode

/-! ## Remaining JS value helpers used by the statement branches -/

/-- JS `ToNumber` that never throws: `none` models `NaN`. -/
def toNumberLoose : Value → Option Int
  | .num n => some n
  | .bool b => some (if b then 1 else 0)
  | .null => some 0
  | .str s =>
      let t := trimJs s
      if t = "" then some 0 else
      match t.data with
      | '-' :: ds => if !ds.isEmpty && ds.all Char.isDigit then some (-(digitsToNat ds : Int)) else none
      | ds => if !ds.isEmpty && ds.all Char.isDigit then some (digitsToNat ds) else none
  | .undef => none
  | .nan => none
  | .list [] => some 0
  | .list [.num n] => some n
  | .list _ => none
  | .dict _ => none
  | .func _ _ _ _ => none

/-- The integer value of a numeric-literal string, if it is one
(`!isNaN(s)` together with `parseFloat(s)` on the integral inputs the
model meets). -/
def numericLiteral (s : String) : Option Int :=
  let t := trimJs s
  match t.data with
  | '-' :: ds => if !ds.isEmpty && ds.all Char.isDigit then some (-(digitsToNat ds : Int)) else none
  | ds => if !ds.isEmpty && ds.all Char.isDigit then some (digitsToNat ds) else none

/-- JS `parseInt` on an already-evaluated value (used for list indexes). -/
def jsParseInt : Value → Option Int
  | .num n => some n
  | .str s =>
      let t := trimJs s
      match t.data with
      | '-' :: ds =>
          let digs := ds.takeWhile Char.isDigit
          if digs.isEmpty then none else some (-(digitsToNat digs : Int))
      | ds =>
          let digs := ds.takeWhile Char.isDigit
          if digs.isEmpty then none else some (digitsToNat digs)
  | .list [.num n] => some n
  | _ => none

/-- JS strict equality `===` as `Array.prototype.indexOf` applies it.
Object operands compare by reference; a freshly evaluated value is a
fresh reference, so the container cases are `false` here (no claim
exercises reference-equal containers). -/
def jsStrictEqB : Value → Value → Bool
  | .num a, .num b => a = b
  | .str a, .str b => a = b
  | .bool a, .bool b => a = b
  | .null, .null => true
  | .undef, .undef => true
  | _, _ => false

/-- First index of a strictly-equal element (`list.indexOf(v)`). -/
def indexOfList : List Value → Value → Option Nat
  | [], _ => none
  | x :: rest, v =>
      if jsStrictEqB x v then some 0
      else (indexOfList rest v).map (· + 1)

/-- `Array.prototype.splice` start-index normalization. -/
def spliceIndex (len : Nat) (idx : Int) : Nat :=
  if idx < 0 then ((len : Int) + idx).toNat else min idx.toNat len

/-- The elements iterated by `for (const item of v)` /
indexed-for over `v.length`: array elements, or one-character strings. -/
def iterElems : Value → List Value
  | .list xs => xs
  | .str s => s.data.map (fun c => .str (.mk [c]))
  | _ => []

/-- The augmented-assignment arithmetic (source lines 406–421), applied to
the possibly-undefined old value.  `+` concatenates when either side is a
string, other ops coerce with `ToNumber`; results JavaScript would make
fractional are modelled as `NaN` (no claim exercises them). -/
def augApply (oldValue : Option Value) (op : Char) (rightValue : Value) : Value :=
  let oldV := oldValue.getD .undef
  if op = '+' then
    match oldV, rightValue with
    | .str a, b => .str (a ++ jsToString b)
    | a, .str b => .str (jsToString a ++ b)
    | a, b =>
        match toNumberLoose a, toNumberLoose b with
        | some m, some n => .num (m + n)
        | _, _ => .nan
  else
    match toNumberLoose oldV, toNumberLoose rightValue with
    | some m, some n =>
        if op = '-' then .num (m - n)
        else if op = '*' then .num (m * n)
        else if op = '/' then (if n ≠ 0 ∧ n ∣ m then .num (m / n) else .nan)
        else if op = '%' then (if n ≠ 0 then .num (Int.tmod m n) else .nan)
        else .undef
    | _, _ => .nan

/-! ## `parseListComprehension` (source lines 133–168) -/

def compLoop (iterVar expr : String) (cond : Option String) (vars : Env) :
    List Value → Except String (List Value)
  | [] => .ok []
  | item :: rest => do
      let tempVars := setEnv vars iterVar item
      let keep ← match cond with
        | none => pure true
        | some c => (safeEval c tempVars).map truthy
      if keep then do
        let v ← safeEval expr tempVars
        let more ← compLoop iterVar expr cond vars rest
        pure (v :: more)
      else compLoop iterVar expr cond vars rest

/-- Evaluate a list-comprehension expression; failures are wrapped in
`List comprehension error: <msg>` (source line 166).  A non-matching
text returns `null`, as the source returns `null` before evaluating. -/
def parseListComprehension (expression : String) (vars : Env) : Except String Value :=
  match listCompExtract expression with
  | none => .ok .null
  | some (expr, iterVar, iterableExpr, cond) =>
      (do
        let iterableValue ← safeEval iterableExpr vars
        match iterableValue with
        | .list _ => pure ()
        | .str _ => pure ()
        | v => throw ("'" ++ jsTypeof (some v) ++ "' object is not iterable")
        let items := iterElems iterableValue
        let collected ← compLoop iterVar expr cond vars items
        pure (Value.list collected)).mapError
          (fun m => "List comprehension error: " ++ m)

/-! ## `handleFunctionCall` (source lines 171–214) -/

/-- Bind `params[i] = args[i]` for `i < args.length` (source lines 182–186). -/
def bindParams (scope : Env) : List String → List Value → Env
  | [], _ => scope
  | _ :: _, [] => scope
  | p :: ps, a :: rest => bindParams (setEnv scope p a) ps rest

/-- Execute the function body (source lines 192–208).  A leading
`return <expr>` line evaluates in the function scope and stops; any other
body line reaches the call `processLine(bodyLine, functionScope,
functionOutput, lines)` at source line 202 — but `lines` is not in scope
there (its only bindings are a parameter of `processLine` and a local
constant of `parseCode`), so evaluating that argument throws
`ReferenceError: lines is not defined`, which the `catch` at line 205
rethrows wrapped. -/
def hfcBody (funcName : String) : List LineData → Env → Except String Value
  | [], _ => .ok .null
  | l :: _, scope =>
      if startsWithS l.trimmed "return " then
        match safeEval (trimJs (.mk (l.trimmed.data.drop 7))) scope with
        | .ok v => .ok v
        | .error m => .error ("Error in function '" ++ funcName ++ "': " ++ m)
      else
        .error ("Error in function '" ++ funcName ++ "': lines is not defined")

/-- `handleFunctionCall(funcName, args, variables, output)`: fresh scope
from the closure, parameters bound positionally, body executed; returns
the return value and the caller's output array (on every non-throwing
path the function-local output buffer is empty, so `output.push(...)`
at source line 211 appends nothing). -/
def handleFunctionCall (funcName : String) (args : List Value) (vars : Env)
    (output : List String) : Except String (Value × List String) :=
  match lookupEnv vars funcName with
  | some (.func _ params body closure) => do
      let functionScope := bindParams closure params args
      let v ← hfcBody funcName body functionScope
      pure (v, output)
  | _ => .error ("'" ++ funcName ++ "' is not defined or not a function")

end DeCode

namespace DeCode

/-- Single-character strings for the quote characters. -/
def sq : String := String.mk [squoteChar]
def dq : String := String.mk [dquoteChar]
def lb : String := String.mk [lbraceChar]
def rb : String := String.mk [rbraceChar]

/-! ## The list-operation bodies (source lines 450–493) -/

/-- Apply one list-method call; returns the new list, the
`operationResult` text and the `resultValue`.  The two implementations
contain the same operation bodies (lines 450–493 and 2246–2289), differing
only in which `safeEval` they call, passed here as `ev`. -/
def applyListOpEv (ev : String → Env → Except String Value)
    (listName operation args : String) (xs : List Value) (vars : Env) :
    Except String (List Value × String × Value) :=
  if operation = "append" then do
    let value ← ev args vars
    pure (xs ++ [value], "Appended " ++ reprValue value ++ " to " ++ listName, .null)
  else if operation = "extend" then do
    let iterable ← ev args vars
    match iterable with
    | .list ys =>
        pure (xs ++ ys, "Extended " ++ listName ++ " with " ++ reprValue iterable, .null)
    | v => throw ("'" ++ jsTypeof (some v) ++ "' object is not iterable")
  else if operation = "remove" then do
    let value ← ev args vars
    match indexOfList xs value with
    | some i =>
        pure (xs.take i ++ xs.drop (i + 1),
          "Removed first occurrence of " ++ reprValue value ++ " from " ++ listName, .null)
    | none => throw ("Value " ++ reprValue value ++ " not found in list")
  else if operation = "pop" then
    if trimJs args = "" then
      let resultValue := (xs.getLast?).getD .undef
      pure (xs.dropLast,
        "Popped last element (" ++ reprValue resultValue ++ ") from " ++ listName, resultValue)
    else do
      let v ← ev args vars
      let idx := jsParseInt v
      let shown := match idx with | some n => toString n | none => "NaN"
      let actual := spliceIndex xs.length (idx.getD 0)
      let resultValue := (xs.get? actual).getD .undef
      let newList := xs.take actual ++ xs.drop (actual + 1)
      pure (newList,
        "Popped element at index " ++ shown ++ " (" ++ reprValue resultValue ++ ") from " ++ listName,
        resultValue)
  else if operation = "insert" then
    match (splitChar args ',').map trimJs with
    | indexStr :: valueStr :: _ => do
        let iv ← ev indexStr vars
        let idx := jsParseInt iv
        let shown := match idx with | some n => toString n | none => "NaN"
        let value ← ev valueStr vars
        let actual := spliceIndex xs.length (idx.getD 0)
        pure (xs.take actual ++ value :: xs.drop actual,
          "Inserted " ++ reprValue value ++ " at index " ++ shown ++ " in " ++ listName, .null)
    | _ => throw "Error evaluating: undefined - Cannot read properties of undefined"
  else
    -- `index` and `count` pass the branch test but have no handler: the
    -- step is still pushed, with an empty summary and a null result
    pure (xs, "", .null)

/-! ## The assignment right-hand-side cascade (source lines 235–376) -/

/-- Compute the value of an assignment's right-hand side, following the
source's cascade: list comprehension, user-function call, multi-line
structure, single-line list/dict literal, then plain evaluation with its
literal fallbacks.  Returns the value and the (possibly extended) output. -/
def assignValue (expression : String) (vars : Env) (out : List String)
    (lines : List LineData) (originalIndex : Nat) :
    Except String (Value × List String) :=
  if listCompDetect expression then
    ((parseListComprehension expression vars).mapError
      (fun m => "List comprehension error: " ++ m)).map (fun v => (v, out))
  else if funcCallAnyTest expression then
    match funcCallExtract expression.data with
    | some (funcName, argsStr) =>
        match lookupEnv vars funcName with
        | some (.func _ _ _ _) => do
            let argParts := if trimJs argsStr ≠ "" then commaSplitTop argsStr else []
            let args ← argParts.mapM (fun a => safeEval a vars)
            match handleFunctionCall funcName args vars out with
            | .ok (v, out') => pure (v, out')
            | .error m => throw ("Function call error: " ++ m)
        | _ =>
            match safeEval expression vars with
            | .ok v => .ok (v, out)
            | .error _ => .ok (.str expression, out)
    | none => .ok (.undef, out)
  else if (startsWithS expression lb || startsWithS expression "[") &&
          (!endsWithS expression rb && !endsWithS expression "]") then
    let structureText := (parseMultiLineStructure lines originalIndex).1
    let c0 := expression.data.headD ' '
    let idx := (structureText.data.takeWhile (· ≠ c0)).length
    let full := String.mk (structureText.data.drop idx)
    if startsWithS full lb then
      match jsonParse (String.mk (keyQuote (full.length + 1) (singleToDouble full).data)) with
      | some v => .ok (v, out)
      | none => .ok (.str full, out)
    else if startsWithS full "[" then
      match jsonParse (singleToDouble full) with
      | some v => .ok (v, out)
      | none => .ok (.str full, out)
    else .ok (.undef, out)
  else if startsWithS expression "[" && endsWithS expression "]" then
    match jsonParse (singleToDouble expression) with
    | some v => .ok (v, out)
    | none =>
        match safeEval expression vars with
        | .ok v => .ok (v, out)
        | .error _ => .ok (.str expression, out)
  else if startsWithS expression lb && endsWithS expression rb then
    let n := expression.length * 2 + 8
    let step1 := (singleToDouble expression).data
    let step2 := keyQuote n step1
    let step3 := replaceAllL n "True".data "true".data step2
    let step4 := replaceAllL n "False".data "false".data step3
    let step5 := replaceAllL n "None".data "null".data step4
    match jsonParse (String.mk step5) with
    | some v => .ok (v, out)
    | none =>
        match safeEval expression vars with
        | .ok v => .ok (v, out)
        | .error _ => .ok (.str expression, out)
  else
    match safeEval expression vars with
    | .ok v => .ok (v, out)
    | .error _ =>
        match numericLiteral expression with
        | some n => .ok (.num n, out)
        | none =>
            if expression = "True" then .ok (.bool true, out)
            else if expression = "False" then .ok (.bool false, out)
            else if expression = "None" then .ok (.null, out)
            else if startsWithS expression dq && endsWithS expression dq then
              .ok (.str (String.mk ((expression.data.drop 1).dropLast)), out)
            else if startsWithS expression sq && endsWithS expression sq then
              .ok (.str (String.mk ((expression.data.drop 1).dropLast)), out)
            else .ok (.str expression, out)

/-! ## `processLine` (source lines 217–762, first implementation) -/

/-- Assignment branch (source lines 230–391). -/
def assignmentBranch (ld : LineData) (vars : Env) (out : List String)
    (lines : List LineData) : Except String (List Step × Env × List String) :=
  let parts := splitChar ld.trimmed '='
  let varName := trimJs (parts.headD "")
  let expression := trimJs (joinWith "=" (parts.drop 1))
  do
    let (value, out') ← assignValue expression vars out lines ld.originalIndex
    let oldValue := lookupEnv vars varName
    let vars' := setEnv vars varName value
    pure ([Step.assignStep ld.originalIndex oldValue.isSome varName value oldValue
            expression (deepCopyEnv vars') out'], vars', out')

/-- Augmented-assignment branch (source lines 393–436).  The `ev`
parameter is the `safeEval` of the implementation at hand; both copies of
the source contain this branch verbatim. -/
def augmentedBranch (ev : String → Env → Except String Value) (ld : LineData)
    (vars : Env) (out : List String) : Except String (List Step × Env × List String) :=
  match augExtract ld.trimmed.data with
  | some (varName, op, rightExpr) =>
      let oldValue := lookupEnv vars varName
      let rightValue := match ev (trimJs rightExpr) vars with
        | .ok v => v
        | .error _ => .str (trimJs rightExpr)
      let newValue := augApply oldValue op rightValue
      let vars' := setEnv vars varName newValue
      .ok ([Step.augmentedAssignStep ld.originalIndex varName op newValue oldValue
             rightValue (deepCopyEnv vars') out], vars', out)
  | none => .ok ([], vars, out)

/-- List-operation branch (source lines 439–509 / 2235–2305), again
parameterized by the implementation's evaluator. -/
def listOperationBranch (ev : String → Env → Except String Value) (ld : LineData)
    (vars : Env) (out : List String) : Except String (List Step × Env × List String) :=
  match dotCallExtract ld.trimmed.data with
  | some (listName, operation, args) =>
      match lookupEnv vars listName with
      | some (.list xs) => do
          let (newList, opRes, resultValue) ← applyListOpEv ev listName operation args xs vars
          let vars' := setEnv vars listName (.list newList)
          pure ([Step.listOperationStep ld.originalIndex listName operation
                  (.list newList) (.list xs) opRes resultValue (deepCopyEnv vars') out],
                vars', out)
      | other =>
          .error ("'" ++ jsTypeof other ++ "' object has no attribute '" ++ operation ++ "'")
  | none => .ok ([], vars, out)

/-- Print branch of the first implementation (source lines 512–583). -/
def printBranch (ld : LineData) (vars : Env) (out : List String) :
    Except String (List Step × Env × List String) :=
  match printExtract ld.trimmed with
  | some args =>
      let printArgs := if trimJs args ≠ "" then
          (commaSplitTop args).map (fun arg =>
            match safeEval arg vars with
            | .ok v => v
            | .error _ =>
                if (startsWithS arg dq && endsWithS arg dq) ||
                   (startsWithS arg sq && endsWithS arg sq) then
                  .str (String.mk ((arg.data.drop 1).dropLast))
                else .str arg)
        else []
      let outputText := joinWith " " (printArgs.map (fun arg =>
          match arg with
          | .list xs => "[" ++ reprItems xs ++ "]"
          | v => reprValue v))
      let out' := out ++ [outputText]
      .ok ([Step.printStep ld.originalIndex printArgs outputText (deepCopyEnv vars) out'],
           vars, out')
  | none => .ok ([], vars, out)

/-- `def`-header branch of the first `processLine` (source lines 585–610):
the function body stays empty (the comment at line 594 promises the main
loop will fill it, which never happens for this path). -/
def functionDefBranch (ld : LineData) (vars : Env) (out : List String) :
    Except String (List Step × Env × List String) :=
  match defMatch ld.trimmed with
  | some (funcName, params) =>
      let paramList := ((splitChar params ',').map trimJs).filter (· ≠ "")
      let func := Value.func funcName paramList [] (deepCopyEnv vars)
      let vars' := setEnv vars funcName func
      .ok ([Step.functionDefinitionStep ld.originalIndex funcName paramList 0
             (deepCopyEnv vars') out], vars', out)
  | none => .ok ([], vars, out)

/-- Standalone-call branch (source lines 613–671). -/
def standaloneCallBranch (ld : LineData) (vars : Env) (out : List String) :
    Except String (List Step × Env × List String) :=
  match standaloneCallExtract ld.trimmed with
  | some (funcName, argsStr) =>
      match lookupEnv vars funcName with
      | some (.func _ _ _ _) => do
          let argParts := if trimJs argsStr ≠ "" then commaSplitTop argsStr else []
          let args ← argParts.mapM (fun a => safeEval (trimJs a) vars)
          match handleFunctionCall funcName args vars out with
          | .ok (result, out') =>
              pure ([Step.functionCallStep ld.originalIndex funcName args result
                      (deepCopyEnv vars) out'], vars, out')
          | .error m => throw ("Function call error: " ++ m)
      | _ => .error ("'" ++ funcName ++ "' is not defined")
  | none => .ok ([], vars, out)

/-- Evaluate a guard expression; an evaluation failure counts as `false`
(the `try`/`catch` around the guard evaluation, source lines 705–709). -/
def evalGuard (ev : String → Env → Except String Value) (condition : String)
    (vars : Env) : Bool :=
  match ev condition vars with
  | .ok v => truthy v
  | .error _ => false

/-- Evaluate a `for` header's iterable; an evaluation failure silently
becomes the empty array (source lines 680–684 / 791–795). -/
def evalIterable (ev : String → Env → Except String Value) (iterableExpr : String)
    (vars : Env) : Value :=
  match ev iterableExpr vars with
  | .ok v => v
  | .error _ => .list []

/-- `for`-header branch of `processLine` (source lines 674–698): only a
start step is recorded; no unrolling happens here. -/
def forHeaderBranch (ev : String → Env → Except String Value) (ld : LineData)
    (vars : Env) (out : List String) : Except String (List Step × Env × List String) :=
  match forMatch ld.trimmed with
  | some (iterVar, iterableExpr) =>
      let iterableValue := evalIterable ev iterableExpr vars
      if (match iterableValue with | .list _ => true | .str _ => true | _ => false) then
        .ok ([Step.forLoopStartStep ld.originalIndex iterVar iterableValue none
               (deepCopyEnv vars) out], vars, out)
      else .error ("'" ++ jsTypeof (some iterableValue) ++ "' object is not iterable")
  | none => .ok ([], vars, out)

/-- `if`-header branch (source lines 701–719 / 2434–2452). -/
def ifHeaderBranch (ev : String → Env → Except String Value) (ld : LineData)
    (vars : Env) (out : List String) : Except String (List Step × Env × List String) :=
  let condition := trimJs (String.mk ((ld.trimmed.data.drop 3).dropLast))
  .ok ([Step.ifStatementStep ld.originalIndex condition (evalGuard ev condition vars)
         (deepCopyEnv vars) out], vars, out)

/-- `while`-header branch (source lines 721–739 / 2454–2471). -/
def whileHeaderBranch (ev : String → Env → Except String Value) (ld : LineData)
    (vars : Env) (out : List String) : Except String (List Step × Env × List String) :=
  let condition := trimJs (String.mk ((ld.trimmed.data.drop 6).dropLast))
  .ok ([Step.whileLoopStartStep ld.originalIndex condition (evalGuard ev condition vars)
         (deepCopyEnv vars) out], vars, out)

/-- The body of `processLine`'s `try` block: classify the line in the
source's fixed branch order and execute it.  An `Except.error` models an
exception reaching the per-line `catch`. -/
def processLineCore (ld : LineData) (vars : Env) (out : List String)
    (lines : List LineData) : Except String (List Step × Env × List String) :=
  let trimmed := ld.trimmed
  if assignTest assignExcludedOps trimmed then assignmentBranch ld vars out lines
  else if augTest trimmed then augmentedBranch safeEval ld vars out
  else if methodCallTest listOpNames trimmed then listOperationBranch safeEval ld vars out
  else if startsWithS trimmed "print(" then printBranch ld vars out
  else if startsWithS trimmed "def " then functionDefBranch ld vars out
  else if standaloneCallTest trimmed && !startsWithS trimmed "print(" then
    standaloneCallBranch ld vars out
  else if startsWithS trimmed "for " then forHeaderBranch safeEval ld vars out
  else if startsWithS trimmed "if " then ifHeaderBranch safeEval ld vars out
  else if startsWithS trimmed "while " then whileHeaderBranch safeEval ld vars out
  else if trimmed.length > 0 && !endsWithS trimmed ":" then
    .ok ([Step.executeStep ld.originalIndex trimmed (deepCopyEnv vars) out], vars, out)
  else .ok ([], vars, out)

/-- `processLine`: blank/comment lines are no-ops; anything thrown inside
the classification is caught and converted into one `error` step carrying
the pre-line environment and output (source lines 750–759). -/
def processLine (ld : LineData) (currentVars : Env) (currentOutput : List String)
    (lines : List LineData) : List Step × Env × List String :=
  if ld.trimmed = "" || startsWithS ld.trimmed "#" then ([], currentVars, currentOutput)
  else
    match processLineCore ld currentVars currentOutput lines with
    | .ok r => r
    | .error m =>
        ([Step.errorStep ld.originalIndex m (deepCopyEnv currentVars) currentOutput],
         currentVars, currentOutput)

/-! ## `parseCode` (source lines 765–916, first implementation) -/

/-- Collect the body of a `for`/`def` header: the run of following lines
that are blank or more indented; blank lines are skipped but consumed
(source lines 803–809 / 871–879).  Returns the body and the number of
lines consumed. -/
def captureBody : List LineData → Nat → List LineData × Nat
  | [], _ => ([], 0)
  | l :: rest, indent =>
      if l.trimmed = "" || l.indent > indent then
        let (b, n) := captureBody rest indent
        ((if l.trimmed ≠ "" then [l] else []) ++ b, n + 1)
      else ([], 0)

/-- Run the loop body once, threading environment and output
(source lines 842–847). -/
def runBodyLines (body : List LineData) (vars : Env) (out : List String)
    (all : List LineData) : List Step × Env × List String :=
  match body with
  | [] => ([], vars, out)
  | l :: rest =>
      let (steps, vars', out') := processLine l vars out all
      let (moreSteps, vars'', out'') := runBodyLines rest vars' out' all
      (steps ++ moreSteps, vars'', out'')

/-- Unroll the loop over the enumerated items (source lines 823–848). -/
def forIterations (lineIdx : Nat) (iterVar : String) (total : Nat)
    (body : List LineData) (all : List LineData) :
    List (Nat × Value) → Env → List String → List Step × Env × List String
  | [], vars, out => ([], vars, out)
  | (idx, item) :: rest, vars, out =>
      let vars1 := setEnv vars iterVar item
      let iterStep := Step.forLoopIterationStep lineIdx iterVar item idx total
        (deepCopyEnv vars1) out
      let (bodySteps, vars2, out2) := runBodyLines body vars1 out all
      let (moreSteps, vars3, out3) :=
        forIterations lineIdx iterVar total body all rest vars2 out2
      (iterStep :: (bodySteps ++ moreSteps), vars3, out3)

/-- The non-recursive work of `parseCode`'s top-level `for` branch
(source lines 786–857): evaluate the iterable (failures become `[]`),
reject non-iterables by throwing, capture and unroll the body.  Returns
the block's steps, the number of lines to skip and the threaded state. -/
def forBlockParts (l : LineData) (rest all : List LineData) (vars : Env)
    (out : List String) (iterVar iterableExpr : String) :
    Except String (List Step × Nat × Env × List String) :=
  let iterableValue := evalIterable safeEval iterableExpr vars
  if (match iterableValue with | .list _ => true | .str _ => true | _ => false) then
    let (loopBody, consumed) := captureBody rest l.indent
    let startStep := Step.forLoopStartStep l.originalIndex iterVar iterableValue
      (some (loopBody.map (·.originalIndex))) (deepCopyEnv vars) out
    let items := iterElems iterableValue
    let (iterSteps, vars', out') :=
      forIterations l.originalIndex iterVar items.length loopBody all items.enum vars out
    let endStep := Step.forLoopEndStep l.originalIndex iterVar (deepCopyEnv vars') out'
    .ok (startStep :: (iterSteps ++ [endStep]), consumed, vars', out')
  else .error ("'" ++ jsTypeof (some iterableValue) ++ "' object is not iterable")

/-- The non-recursive work of `parseCode`'s top-level `def` branch
(source lines 866–905): capture the body, build the Function value with
its deep-copied closure, record one step. -/
def defBlockParts (l : LineData) (rest : List LineData) (vars : Env)
    (out : List String) (funcName params : String) : Step × Nat × Env :=
  let (functionBody, consumed) := captureBody rest l.indent
  let paramList := ((splitChar params ',').map trimJs).filter (· ≠ "")
  let func := Value.func funcName paramList functionBody (deepCopyEnv vars)
  let vars' := setEnv vars funcName func
  let defStep := Step.functionDefinitionStep l.originalIndex funcName paramList
    functionBody.length (deepCopyEnv vars') out
  (defStep, consumed, vars')

/-- One step of `parseCode`'s main scan (source lines 777–913), with the
recursive call abstracted as `recurse`.  A `for` header evaluates its
iterable (an evaluation failure silently becomes `[]`), rejects
non-iterables by throwing out of the whole build (source line 798 — there
is no surrounding `try`), unrolls the loop and skips its body; a `def`
header captures its body into a `Function` value with a deep-copied
closure and skips it; every other line goes through `processLine` and the
scan continues. -/
def parseCodeStep (recurse : List LineData → Env → List String → Except String (List Step))
    (l : LineData) (rest : List LineData) (vars : Env) (out : List String)
    (all : List LineData) : Except String (List Step) :=
  if l.trimmed = "" || startsWithS l.trimmed "#" then recurse rest vars out
  else if startsWithS l.trimmed "for " && (forMatch l.trimmed).isSome then
    match forMatch l.trimmed with
    | some (iterVar, iterableExpr) =>
        match forBlockParts l rest all vars out iterVar iterableExpr with
        | .ok (blockSteps, consumed, vars', out') =>
            (recurse (rest.drop consumed) vars' out').map
              (fun more => blockSteps ++ more)
        | .error e => .error e
    | none => .ok []
  else if startsWithS l.trimmed "def " && (defMatch l.trimmed).isSome then
    match defMatch l.trimmed with
    | some (funcName, params) =>
        match defBlockParts l rest vars out funcName params with
        | (defStep, consumed, vars') =>
            (recurse (rest.drop consumed) vars' out).map (defStep :: ·)
    | none => .ok []
  else
    match processLine l vars out all with
    | (steps, vars', out') =>
        (recurse rest vars' out').map (steps ++ ·)

/-- The fueled main scan: one `parseCodeStep` per line. -/
def parseCodeAux : Nat → List LineData → Env → List String → List LineData →
    Except String (List Step)
  | _, [], _, _, _ => .ok []
  | 0, _ :: _, _, _, _ => .error "model: fuel exhausted"
  | f + 1, l :: rest, vars, out, all =>
      parseCodeStep (fun r v o => parseCodeAux f r v o all) l rest vars out all

/-- Unfolding equation for the scan on a non-empty line list. -/
theorem parseCodeAux_succ (f : Nat) (l : LineData) (rest all : List LineData)
    (vars : Env) (out : List String) :
    parseCodeAux (f + 1) (l :: rest) vars out all =
      parseCodeStep (fun r v o => parseCodeAux f r v o all) l rest vars out all := rfl

/-- The line segmenter at the top of `parseCode` (source lines 766–771). -/
def segment (codeString : String) : List LineData :=
  (splitChar codeString '\n').enum.map (fun p =>
    { content := p.2, originalIndex := p.1, trimmed := trimJs p.2,
      indent := (p.2.data.takeWhile isSpaceChar).length })

/-- `parseCode` (first implementation): build the whole trace.  An
`Except.error` models an exception escaping `parseCode` itself, which
aborts the build (`resetVisualization` then shows a fatal error and no
trace). -/
def parseCode (codeString : String) : Except String (List Step) :=
  let lines := segment codeString
  parseCodeAux (lines.length + 1) lines [] [] lines

end DeCode


namespace DeCode

/-! ## The second interpreter implementation (source lines 1990–3667)

The source file contains a second, older copy of the component after the
separator at line 1988, with its own `safeEval` (2056), `parseCode`
(2099) and nested `processLine` (2132).  The claims about dictionary
operations target this copy. -/

/-- The rewrite chain of the second `safeEval` (source lines 2059–2073).
It differs from the first in the `//` and `**` rules: the replacement
strings name capture groups `$1`/`$2` that the patterns do not have, so
JavaScript inserts them literally. -/
def pythonToJs2 (expression : String) : String :=
  let n := expression.length * 2 + 64
  let s0 := expression.data
  let s1 := replaceWordL n "True".data "true".data true false s0
  let s2 := replaceWordL n "False".data "false".data true false s1
  let s3 := replaceWordL n "None".data "null".data true false s2
  let s4 := replaceWordL n "print(".data "__print(".data false false s3
  let s5 := replaceWordL n "range(".data "__range(".data false false s4
  let s6 := replaceWordL n "len(".data "__len(".data false false s5
  let s7 := replaceNotL n false s6
  let s8 := replaceWordL n "and".data "&&".data true false s7
  let s9 := replaceWordL n "or".data "||".data true false s8
  let s10 := replaceAllL (n * 8) "//".data "Math.floor($1/$2)".data s9
  let s11 := replaceAllL (n * 8) "**".data "Math.pow($1,$2)".data s10
  let s12 := quoteNorm (n * 8) s11
  .mk s12

/-- The second `safeEval` (source lines 2056–2096): rewrite and evaluate;
on failure, a fallback peels simple `lhs = rhs` texts apart and returns a
value for the right-hand side when it is a variable or a literal, before
giving up with the wrapped error. -/
def safeEval2 (expression : String) (vars : Env) : Except String Value :=
  match jsEval (pythonToJs2 expression) vars with
  | .ok v => .ok v
  | .error m =>
      let fallback : Option Value :=
        if includesStr expression "=" &&
           !(assignExcludedOps2.any (fun op => includesStr expression op)) then
          let parts := splitChar expression '='
          if parts.length = 2 then
            let rightSide := trimJs (parts.getD 1 "")
            match lookupEnv vars rightSide with
            | some v => some v
            | none =>
                match numericLiteral rightSide with
                | some k => some (.num k)
                | none =>
                    if startsWithS rightSide dq && endsWithS rightSide dq then
                      some (.str (String.mk ((rightSide.data.drop 1).dropLast)))
                    else if startsWithS rightSide sq && endsWithS rightSide sq then
                      some (.str (String.mk ((rightSide.data.drop 1).dropLast)))
                    else if rightSide = "True" then some (.bool true)
                    else if rightSide = "False" then some (.bool false)
                    else if rightSide = "None" then some .null
                    else none
          else none
        else none
      match fallback with
      | some v => .ok v
      | none => .error ("Error evaluating: " ++ expression ++ " - " ++ m)

/-- The dictionary-method bodies (source lines 2322–2358).  Returns the
new entry list, the `operationResult` text and the `resultValue`. -/
def applyDictOp (dictName operation args : String) (entries : List (String × Value))
    (vars : Env) : Except String (List (String × Value) × String × Value) :=
  if operation = "get" then do
    let parts := (splitChar args ',').map trimJs
    let keyStr := parts.headD ""
    let defaultValue := parts.get? 1
    let key ← safeEval2 keyStr vars
    let keyS := jsToString key
    let resultValue ←
      match lookupEnv entries keyS with
      | some v => pure v
      | none =>
          match defaultValue with
          | some d => if d ≠ "" then safeEval2 d vars else pure .null
          | none => pure .null
    pure (entries,
      "Got value for key " ++ reprValue key ++ ": " ++ reprValue resultValue, resultValue)
  else if operation = "keys" then
    pure (entries, "Retrieved keys from " ++ dictName,
      .list (entries.map (fun kv => .str kv.1)))
  else if operation = "values" then
    pure (entries, "Retrieved values from " ++ dictName,
      .list (entries.map (fun kv => kv.2)))
  else if operation = "items" then
    pure (entries, "Retrieved items from " ++ dictName,
      .list (entries.map (fun kv => .list [.str kv.1, kv.2])))
  else if operation = "update" then do
    let newItems ← safeEval2 args vars
    let merged := match newItems with
      | .dict more => more.foldl (fun acc kv => setEnv acc kv.1 kv.2) entries
      | _ => entries
    pure (merged, "Updated " ++ dictName ++ " with new items", .null)
  else if operation = "pop" then do
    let parts := (splitChar args ',').map trimJs
    let keyStr := parts.headD ""
    let defaultValue := parts.get? 1
    let key ← safeEval2 keyStr vars
    let keyS := jsToString key
    match lookupEnv entries keyS with
    | some v =>
        pure (entries.filter (fun kv => kv.1 ≠ keyS),
          "Popped key " ++ reprValue key ++ " with value " ++ reprValue v, v)
    | none =>
        match defaultValue with
        | some d =>
            if d ≠ "" then do
              let dv ← safeEval2 d vars
              pure (entries,
                "Key " ++ reprValue key ++ " not found, returned default value " ++ reprValue dv,
                dv)
            else throw ("KeyError: " ++ reprValue key)
        | none => throw ("KeyError: " ++ reprValue key)
  else pure (entries, "", .null)

/-- Assignment branch of the second implementation (source lines
2144–2187): a simpler cascade (single-line list/dict literal via JSON,
else evaluation with a raw-text fallback). -/
def assignment2Branch (ld : LineData) (vars : Env) (out : List String) :
    Except String (List Step × Env × List String) :=
  let parts := splitChar ld.trimmed '='
  let varName := trimJs (parts.headD "")
  let expression := trimJs (joinWith "=" (parts.drop 1))
  let value :=
    if startsWithS expression "[" && endsWithS expression "]" then
      match jsonParse (singleToDouble expression) with
      | some v => v
      | none => .str expression
    else if startsWithS expression lb && endsWithS expression rb then
      match jsonParse (singleToDouble expression) with
      | some v => v
      | none => .str expression
    else
      match safeEval2 expression vars with
      | .ok v => v
      | .error _ => .str expression
  let oldValue := lookupEnv vars varName
  let vars' := setEnv vars varName value
  .ok ([Step.assignStep ld.originalIndex oldValue.isSome varName value oldValue
         expression (deepCopyEnv vars') out], vars', out)

/-- Dictionary-operation branch (source lines 2308–2375). -/
def dictOperationBranch (ld : LineData) (vars : Env) (out : List String) :
    Except String (List Step × Env × List String) :=
  match dotCallExtract ld.trimmed.data with
  | some (dictName, operation, args) =>
      match lookupEnv vars dictName with
      | some (.dict entries) => do
          let (newEntries, opRes, resultValue) ←
            applyDictOp dictName operation args entries vars
          let vars' := setEnv vars dictName (.dict newEntries)
          pure ([Step.dictOperationStep ld.originalIndex dictName operation
                  (.dict newEntries) (.dict entries) opRes resultValue
                  (deepCopyEnv vars') out], vars', out)
      | other =>
          .error ("'" ++ jsTypeof other ++ "' object has no attribute '" ++ operation ++ "'")
  | none => .ok ([], vars, out)

/-- Print branch of the second implementation (source lines 2377–2403):
the whole argument text is evaluated as one expression; on failure all
quote characters are stripped from it. -/
def print2Branch (ld : LineData) (vars : Env) (out : List String) :
    Except String (List Step × Env × List String) :=
  match printExtract ld.trimmed with
  | some args =>
      let printValue := match safeEval2 args vars with
        | .ok v => v
        | .error _ =>
            .str (String.mk (args.data.filter
              (fun c => c ≠ squoteChar ∧ c ≠ dquoteChar)))
      let outputText := match printValue with
        | .list xs => "[" ++ reprItems xs ++ "]"
        | v => reprValue v
      let out' := out ++ [outputText]
      -- the source stores the single evaluated value in the step's
      -- `value` field; the shared constructor stores it as a one-element list
      .ok ([Step.printStep ld.originalIndex [printValue] outputText
             (deepCopyEnv vars) out'], vars, out')
  | none => .ok ([], vars, out)

/-- `def`-header branch of the second implementation (source lines
2473–2496): the function object is a plain `{name, params, variables}`
record with no body and no `isFunction` flag. -/
def functionDef2Branch (ld : LineData) (vars : Env) (out : List String) :
    Except String (List Step × Env × List String) :=
  match defMatch ld.trimmed with
  | some (funcName, params) =>
      let paramList := ((splitChar params ',').map trimJs).filter (· ≠ "")
      let func := Value.dict [("name", .str funcName),
        ("params", .list (paramList.map Value.str)),
        ("variables", .dict (deepCopyEnv vars))]
      let vars' := setEnv vars funcName func
      .ok ([Step.functionDefinitionStep ld.originalIndex funcName paramList 0
             (deepCopyEnv vars') out], vars', out)
  | none => .ok ([], vars, out)

/-- Function-call branch of the second implementation (source lines
2498–2519): records the call (the body is never invoked); its step has no
returnValue field, modelled as `undefined`. -/
def functionCall2Branch (ld : LineData) (vars : Env) (out : List String) :
    Except String (List Step × Env × List String) :=
  match funcCallExtract ld.trimmed.data with
  | some (funcName, argsStr) =>
      match lookupEnv vars funcName with
      | some (.dict _) | some (.list _) | some (.func _ _ _ _) => do
          let argValues ← ((splitChar argsStr ',').map trimJs).mapM
            (fun a => safeEval2 a vars)
          pure ([Step.functionCallStep ld.originalIndex funcName argValues .undef
                  (deepCopyEnv vars) out], vars, out)
      | _ => .error ("'" ++ funcName ++ "' is not defined")
  | none => .ok ([], vars, out)

/-- The body of the second `processLine`'s `try` block (source lines
2143–2529), in the source's branch order. -/
def processLineCore2 (ld : LineData) (vars : Env) (out : List String) :
    Except String (List Step × Env × List String) :=
  let trimmed := ld.trimmed
  if assignTest assignExcludedOps2 trimmed then assignment2Branch ld vars out
  else if augTest trimmed then augmentedBranch safeEval2 ld vars out
  else if methodCallTest listOpNames trimmed then listOperationBranch safeEval2 ld vars out
  else if methodCallTest dictOpNames trimmed then dictOperationBranch ld vars out
  else if startsWithS trimmed "print(" then print2Branch ld vars out
  else if startsWithS trimmed "for " then forHeaderBranch safeEval2 ld vars out
  else if startsWithS trimmed "if " then ifHeaderBranch safeEval2 ld vars out
  else if startsWithS trimmed "while " then whileHeaderBranch safeEval2 ld vars out
  else if startsWithS trimmed "def " then functionDef2Branch ld vars out
  else if funcCallAnyTest trimmed && !startsWithS trimmed "print(" then
    functionCall2Branch ld vars out
  else if trimmed.length > 0 && !endsWithS trimmed ":" then
    .ok ([Step.executeStep ld.originalIndex trimmed (deepCopyEnv vars) out], vars, out)
  else .ok ([], vars, out)

/-- The second `processLine` (source lines 2132–2542). -/
def processLine2 (ld : LineData) (currentVars : Env) (currentOutput : List String) :
    List Step × Env × List String :=
  if ld.trimmed = "" || startsWithS ld.trimmed "#" then ([], currentVars, currentOutput)
  else
    match processLineCore2 ld currentVars currentOutput with
    | .ok r => r
    | .error m =>
        ([Step.errorStep ld.originalIndex m (deepCopyEnv currentVars) currentOutput],
         currentVars, currentOutput)

/-- Body capture of the second `parseCode`'s `for` branch (source lines
2569–2574): strictly more-indented lines only (a blank line ends the
body, unlike the first implementation). -/
def captureBody2 (rest : List LineData) (indent : Nat) : List LineData × Nat :=
  let body := rest.takeWhile (fun l => l.indent > indent)
  (body, body.length)

/-- Loop-body execution of the second implementation (2606–2612). -/
def runBodyLines2 : List LineData → Env → List String → List Step × Env × List String
  | [], vars, out => ([], vars, out)
  | l :: rest, vars, out =>
      let (steps, vars', out') := processLine2 l vars out
      let (moreSteps, vars'', out'') := runBodyLines2 rest vars' out'
      (steps ++ moreSteps, vars'', out'')

/-- Loop unrolling of the second implementation (2588–2613). -/
def forIterations2 (lineIdx : Nat) (iterVar : String) (total : Nat)
    (body : List LineData) :
    List (Nat × Value) → Env → List String → List Step × Env × List String
  | [], vars, out => ([], vars, out)
  | (idx, item) :: rest, vars, out =>
      let vars1 := setEnv vars iterVar item
      let iterStep := Step.forLoopIterationStep lineIdx iterVar item idx total
        (deepCopyEnv vars1) out
      let (bodySteps, vars2, out2) := runBodyLines2 body vars1 out
      let (moreSteps, vars3, out3) :=
        forIterations2 lineIdx iterVar total body rest vars2 out2
      (iterStep :: (bodySteps ++ moreSteps), vars3, out3)

/-- `processBlock` of the second `parseCode` (source lines 2116–2129):
run every strictly more-indented line through `processLine`. -/
def processBlock2 (rest : List LineData) (baseIndent : Nat) (vars : Env)
    (out : List String) : List Step × Env × List String × Nat :=
  let block := rest.takeWhile (fun l => l.indent > baseIndent)
  let (steps, vars', out') := runBodyLines2 block vars out
  (steps, vars', out', block.length)

/-- Main scan of the second `parseCode` (source lines 2545–2663): a `for`
header unrolls as in the first implementation; any other line ending in
`:` becomes a `control_structure_start`/`_end` pair around its block; the
rest go through `processLine`.  There is no top-level `def` handling. -/
def parseCodeAux2 : Nat → List LineData → Env → List String →
    Except String (List Step)
  | _, [], _, _ => .ok []
  | 0, _ :: _, _, _ => .error "model: fuel exhausted"
  | f + 1, l :: rest, vars, out =>
      if l.trimmed = "" || startsWithS l.trimmed "#" then parseCodeAux2 f rest vars out
      else if startsWithS l.trimmed "for " && (forMatch l.trimmed).isSome then
        match forMatch l.trimmed with
        | some (iterVar, iterableExpr) =>
            let iterableValue := evalIterable safeEval2 iterableExpr vars
            if (match iterableValue with | .list _ => true | .str _ => true | _ => false) then
              let (loopBody, consumed) := captureBody2 rest l.indent
              let startStep := Step.forLoopStartStep l.originalIndex iterVar iterableValue
                (some (loopBody.map (·.originalIndex))) (deepCopyEnv vars) out
              let items := iterElems iterableValue
              let (iterSteps, vars', out') :=
                forIterations2 l.originalIndex iterVar items.length loopBody
                  items.enum vars out
              let endStep := Step.forLoopEndStep l.originalIndex iterVar
                (deepCopyEnv vars') out'
              (parseCodeAux2 f (rest.drop consumed) vars' out').map
                (fun more => startStep :: (iterSteps ++ endStep :: more))
            else .error ("'" ++ jsTypeof (some iterableValue) ++ "' object is not iterable")
        | none => .ok []
      else if endsWithS l.trimmed ":" then
        let startStep := Step.controlStructureStartStep l.originalIndex l.trimmed
          (deepCopyEnv vars) out
        let (blockSteps, vars', out', consumed) := processBlock2 rest l.indent vars out
        let endStep := Step.controlStructureEndStep l.originalIndex l.trimmed
          (deepCopyEnv vars') out'
        (parseCodeAux2 f (rest.drop consumed) vars' out').map
          (fun more => startStep :: (blockSteps ++ endStep :: more))
      else
        let (steps, vars', out') := processLine2 l vars out
        (parseCodeAux2 f rest vars' out').map (steps ++ ·)

/-- The second `parseCode` (source lines 2099–2666). -/
def parseCode2 (codeString : String) : Except String (List Step) :=
  let lines := segment codeString
  parseCodeAux2 (lines.length + 1) lines [] []

end DeCode

namespace DeCode

/-! # Claim theorems -/

/-- A helper fact used by several claims: `setEnv` on an absent key
appends the binding. -/
theorem setEnv_absent (env : Env) (k : String) (v : Value)
    (h : lookupEnv env k = none) : setEnv env k v = env ++ [(k, v)] := by
  induction env with
  | nil => rfl
  | cons kv rest ih =>
      unfold lookupEnv at h
      unfold setEnv
      by_cases hk : kv.1 = k
      · simp [hk] at h
      · simp only [hk, if_false]
        obtain ⟨a, b⟩ := kv
        simp only [hk, if_false] at h ⊢
        exact congrArg _ (ih h)

/-- **C4** (confirmed).  For the source `for n in range(3):` with body
`print(n)`, the trace is exactly one `for_loop_start` step, three
`(for_loop_iteration, print)` pairs with `n = 0, 1, 2` and
`totalIterations = 3`, and one `for_loop_end` step; the output of the
final step is `["0", "1", "2"]`. -/
theorem C4_loop_unrolling :
    parseCode "for n in range(3):\n    print(n)" =
      .ok [Step.forLoopStartStep 0 "n" (.list [.num 0, .num 1, .num 2]) (some [1]) [] [],
           Step.forLoopIterationStep 0 "n" (.num 0) 0 3 [("n", .num 0)] [],
           Step.printStep 1 [.num 0] "0" [("n", .num 0)] ["0"],
           Step.forLoopIterationStep 0 "n" (.num 1) 1 3 [("n", .num 1)] ["0"],
           Step.printStep 1 [.num 1] "1" [("n", .num 1)] ["0", "1"],
           Step.forLoopIterationStep 0 "n" (.num 2) 2 3 [("n", .num 2)] ["0", "1"],
           Step.printStep 1 [.num 2] "2" [("n", .num 2)] ["0", "1", "2"],
           Step.forLoopEndStep 0 "n" [("n", .num 2)] ["0", "1", "2"]] := rfl

end DeCode

namespace DeCode

/-- **C1** (counterexample).  The claim says no per-line failure —
including a TypeError from a non-iterable `for` header — aborts the whole
trace.  But a top-level `for` header whose iterable evaluates to a
non-iterable value throws at source line 798, outside any `try`, so
`parseCode` itself fails and no trace is produced. -/
theorem C1_counterexample :
    parseCode "x = 5\nfor n in x:\n  print(n)" =
      .error "'number' object is not iterable" := rfl

/-- **C2** (counterexample).  For the two-line source `x = 1` /
`y = z + 1` with `z` unbound, the trace contains no `error` step: the
assignment's evaluation failure falls into the literal fallback of source
lines 358–374, which binds `y` to the raw expression text `"z + 1"` as a
String, changing `variables`. -/
theorem C2_counterexample :
    parseCode "x = 1\ny = z + 1" =
      .ok [Step.assignStep 0 false "x" (.num 1) none "1" [("x", .num 1)] [],
           Step.assignStep 1 false "y" (.str "z + 1") none "z + 1"
             [("x", .num 1), ("y", .str "z + 1")] []] := rfl

/-- **C2** (amended, proved).  The second line yields an `assign` step
(not an `error` step) whose value is the literal expression text
`"z + 1"` as a String; `variables` gains the `y` binding; although the
internal evaluation failure's message does identify `z`
(`z is not defined`), it is discarded by the fallback. -/
theorem C2_unbound_name_assigns_raw_text :
    safeEval "z + 1" [("x", .num 1)] =
      .error "Error evaluating: z + 1 - z is not defined" ∧
    (∃ s1 s2, parseCode "x = 1\ny = z + 1" = .ok [s1, s2] ∧
      s2.action = "assign" ∧
      lookupEnv s2.varsOf "y" = some (.str "z + 1") ∧
      s1.varsOf = [("x", .num 1)]) :=
  ⟨rfl, _, _, rfl, rfl, rfl, rfl⟩

/-- **C3** (code bug).  The rewrite at source line 82 replaces `//` with
the bare text `Math.floor`, so `7 // 2` becomes the ill-formed JavaScript
`7 Math.floor 2` and evaluation throws instead of producing `3`.  The
`**` half of the claim does hold: `2 ** 10` is rewritten to
`Math.pow(2, 10)` and evaluates to `1024`. -/
theorem C3_floordiv_rewrite_broken :
    pythonToJs "7 // 2" = "7 Math.floor 2" ∧
    safeEval "7 // 2" [] =
      .error "Error evaluating: 7 // 2 - Unexpected token after expression" ∧
    pythonToJs "2 ** 10" = "Math.pow(2, 10)" ∧
    safeEval "2 ** 10" [] = .ok (.num 1024) := ⟨rfl, rfl, rfl, rfl⟩

/-- **C6** (code bug).  `handleFunctionCall` executes a body line that is
not a `return` by calling `processLine(bodyLine, functionScope,
functionOutput, lines)` (source line 202), but `lines` is not in scope
there, so the call throws `ReferenceError: lines is not defined`: a
function whose body contains any non-`return` line can never complete.
For `def f():` / `x = 1` / `r = f()` the claim promises a completed call
with value None bound to `r`; the code instead produces an `error` step
and leaves `r` unbound. -/
theorem C6_function_body_crashes :
    parseCode "def f():\n  x = 1\nr = f()" =
      .ok [Step.functionDefinitionStep 0 "f" [] 1
             [("f", .func "f" [] [⟨"  x = 1", 1, "x = 1", 2⟩] [])] [],
           Step.errorStep 2
             "Function call error: Error in function 'f': lines is not defined"
             [("f", .func "f" [] [⟨"  x = 1", 1, "x = 1", 2⟩] [])] []] := rfl

/-- **C7** (confirmed).  A Function's closure is the deep snapshot taken
when its `def` header is processed: (1) the result of
`handleFunctionCall` depends on the caller's environment only through the
stored Function value, so any mutation of other variables between
definition and call is invisible to the body; (2) concretely, with `x`
reassigned from 1 to 2 after `def f(): return x`, the call still returns
the definition-time value 1. -/
theorem C7_closure_snapshot :
    (∀ (funcName : String) (args : List Value) (vars1 vars2 : Env) (out : List String),
      lookupEnv vars1 funcName = lookupEnv vars2 funcName →
      handleFunctionCall funcName args vars1 out = handleFunctionCall funcName args vars2 out) ∧
    parseCode "x = 1\ndef f():\n  return x\nx = 2\nr = f()" =
      .ok [Step.assignStep 0 false "x" (.num 1) none "1" [("x", .num 1)] [],
           Step.functionDefinitionStep 1 "f" [] 1
             [("x", .num 1),
              ("f", .func "f" [] [⟨"  return x", 2, "return x", 2⟩] [("x", .num 1)])] [],
           Step.assignStep 3 true "x" (.num 2) (some (.num 1)) "2"
             [("x", .num 2),
              ("f", .func "f" [] [⟨"  return x", 2, "return x", 2⟩] [("x", .num 1)])] [],
           Step.assignStep 4 false "r" (.num 1) none "f()"
             [("x", .num 2),
              ("f", .func "f" [] [⟨"  return x", 2, "return x", 2⟩] [("x", .num 1)]),
              ("r", .num 1)] []] := by
  constructor
  · intro funcName args vars1 vars2 out h
    unfold handleFunctionCall
    rw [h]
  · rfl

/-- **C7** (witness).  The environment-independence part applied at a
concrete input: with the same stored Function, a caller environment where
`x = 9` and one where `x = 1` give identical call results. -/
theorem C7_closure_snapshot_witness :
    handleFunctionCall "f" []
      [("x", .num 9), ("f", .func "f" [] [⟨"  return x", 2, "return x", 2⟩] [("x", .num 1)])] [] =
    handleFunctionCall "f" []
      [("x", .num 1), ("f", .func "f" [] [⟨"  return x", 2, "return x", 2⟩] [("x", .num 1)])] [] :=
  C7_closure_snapshot.1 "f" [] _ _ [] rfl

/-- **C9** (counterexample).  The claim says `name.pop(key)` on a dict
with an absent key and a default returns the default and records a
`dict_operation` step.  But `pop` is also in the list-operation branch
test, which is checked first (source line 2235), so a dict-valued `pop`
throws `'object' object has no attribute 'pop'` and the line becomes an
`error` step. -/
theorem C9_counterexample :
    parseCode2 "d = \x7b'a': 1\x7d\nd.pop('b', 5)" =
      .ok [Step.assignStep 0 false "d" (.dict [("a", .num 1)]) none "\x7b'a': 1\x7d"
             [("d", .dict [("a", .num 1)])] [],
           Step.errorStep 1 "'object' object has no attribute 'pop'"
             [("d", .dict [("a", .num 1)])] []] := rfl

end DeCode

namespace DeCode

/-- **C1** (amended, proved).  Failures raised inside the statement
interpreter are caught at the line boundary: whenever the classification
body throws, `processLine` yields exactly one `error` step carrying the
message and the pre-line environment and output, and the top-level scan
continues with the next line using the pre-failure environment.  (The
exception, forced by `C1_counterexample`: a top-level `for` header whose
iterable evaluates to a non-iterable value throws out of the scan itself
and aborts the whole trace.) -/
theorem C1_per_line_failures_become_error_steps
    (f : Nat) (l : LineData) (rest all : List LineData)
    (vars : Env) (out : List String) (msg : String)
    (hne : l.trimmed ≠ "")
    (hcm : startsWithS l.trimmed "#" = false)
    (hfor : (startsWithS l.trimmed "for " && (forMatch l.trimmed).isSome) = false)
    (hdef : (startsWithS l.trimmed "def " && (defMatch l.trimmed).isSome) = false)
    (hcore : processLineCore l vars out all = .error msg) :
    processLine l vars out all =
      ([Step.errorStep l.originalIndex msg (deepCopyEnv vars) out], vars, out) ∧
    parseCodeAux (f + 1) (l :: rest) vars out all =
      (parseCodeAux f rest vars out all).map
        (Step.errorStep l.originalIndex msg (deepCopyEnv vars) out :: ·) := by
  have hp : processLine l vars out all =
      ([Step.errorStep l.originalIndex msg (deepCopyEnv vars) out], vars, out) := by
    unfold processLine
    simp [hne, hcm, hcore]
  refine ⟨hp, ?_⟩
  rw [parseCodeAux_succ]
  unfold parseCodeStep
  rw [if_neg (by simp [hne, hcm]), if_neg (by simp [hfor]), if_neg (by simp [hdef]), hp]
  rfl

/-- **C1** (witness).  The line `nums.append(1)` with `nums` unbound
throws the list-method TypeError, which the line boundary converts into
one `error` step, and the scan continues. -/
theorem C1_per_line_failures_witness :
    processLine ⟨"nums.append(1)", 0, "nums.append(1)", 0⟩ [] [] [] =
      ([Step.errorStep 0 "'undefined' object has no attribute 'append'" [] []], [], []) ∧
    parseCodeAux 1 [⟨"nums.append(1)", 0, "nums.append(1)", 0⟩] [] [] [] =
      (parseCodeAux 0 [] [] [] []).map
        (Step.errorStep 0 "'undefined' object has no attribute 'append'" [] [] :: ·) :=
  C1_per_line_failures_become_error_steps 0 ⟨"nums.append(1)", 0, "nums.append(1)", 0⟩
    [] [] [] [] "'undefined' object has no attribute 'append'"
    (by decide) rfl rfl rfl rfl

end DeCode

namespace DeCode

/-- **C10** (confirmed).  A top-level `for` header whose iterable
expression fails to evaluate substitutes the empty iterable (source lines
791–795): the trace gets a `for_loop_start` step whose iterable is `[]`,
zero iteration steps, and a `for_loop_end` step; no `error` step records
the failure, and the scan resumes after the skipped body. -/
theorem C10_failing_iterable_swallowed
    (f : Nat) (l : LineData) (rest all : List LineData) (vars : Env) (out : List String)
    (iterVar iterableExpr msg : String)
    (hne : l.trimmed ≠ "")
    (hcm : startsWithS l.trimmed "#" = false)
    (hfor : startsWithS l.trimmed "for " = true)
    (hmatch : forMatch l.trimmed = some (iterVar, iterableExpr))
    (heval : safeEval iterableExpr vars = .error msg) :
    parseCodeAux (f + 1) (l :: rest) vars out all =
      (parseCodeAux f (rest.drop (captureBody rest l.indent).2) vars out all).map
        (fun more =>
          Step.forLoopStartStep l.originalIndex iterVar (.list [])
            (some ((captureBody rest l.indent).1.map (·.originalIndex)))
            (deepCopyEnv vars) out ::
          Step.forLoopEndStep l.originalIndex iterVar (deepCopyEnv vars) out :: more) := by
  rw [parseCodeAux_succ]
  unfold parseCodeStep
  rw [if_neg (by simp [hne, hcm]), if_pos (by simp [hfor, hmatch])]
  simp only [hmatch, forBlockParts, evalIterable, heval]
  rfl

/-- **C10** (witness).  `for n in zzz:` with `zzz` unbound: the evaluation
failure is swallowed, the trace is exactly a `for_loop_start` with empty
iterable followed by `for_loop_end`, with no error step. -/
theorem C10_failing_iterable_witness :
    parseCodeAux 2 [⟨"for n in zzz:", 0, "for n in zzz:", 0⟩, ⟨"  print(n)", 1, "print(n)", 2⟩]
        [] [] [⟨"for n in zzz:", 0, "for n in zzz:", 0⟩, ⟨"  print(n)", 1, "print(n)", 2⟩] =
      (parseCodeAux 1
        ([⟨"  print(n)", 1, "print(n)", 2⟩].drop
          (captureBody [⟨"  print(n)", 1, "print(n)", 2⟩] 0).2) [] []
        [⟨"for n in zzz:", 0, "for n in zzz:", 0⟩, ⟨"  print(n)", 1, "print(n)", 2⟩]).map
        (fun more =>
          Step.forLoopStartStep 0 "n" (.list [])
            (some ((captureBody [⟨"  print(n)", 1, "print(n)", 2⟩] 0).1.map (·.originalIndex)))
            (deepCopyEnv []) [] ::
          Step.forLoopEndStep 0 "n" (deepCopyEnv []) [] :: more) :=
  C10_failing_iterable_swallowed 1 ⟨"for n in zzz:", 0, "for n in zzz:", 0⟩
    [⟨"  print(n)", 1, "print(n)", 2⟩]
    [⟨"for n in zzz:", 0, "for n in zzz:", 0⟩, ⟨"  print(n)", 1, "print(n)", 2⟩]
    [] [] "n" "zzz" "Error evaluating: zzz - zzz is not defined"
    (by decide) rfl rfl rfl rfl

end DeCode

namespace DeCode

/-- **C5** (confirmed).  An `if cond:` / `while cond:` header that reaches
its classification branch produces exactly one `if_statement` /
`while_loop_start` step carrying the boolean result of evaluating the
guard once (an evaluation failure counts as `false`), leaves the
environment and output unchanged, and the top-level scan then simply
continues with the following lines: the indented body lines are visited
exactly once each in program order, and nothing in the continuation
depends on the recorded `conditionResult` — so the body is visited
whether the guard was true or false, and a `while` body is never
re-entered. -/
theorem C5_guard_header_one_step_body_unconditional
    (f : Nat) (l : LineData) (rest all : List LineData) (vars : Env) (out : List String)
    (hne : l.trimmed ≠ "")
    (hcm : startsWithS l.trimmed "#" = false)
    (hassign : assignTest assignExcludedOps l.trimmed = false)
    (haug : augTest l.trimmed = false)
    (hlist : methodCallTest listOpNames l.trimmed = false)
    (hprint : startsWithS l.trimmed "print(" = false)
    (hdefS : startsWithS l.trimmed "def " = false)
    (hstand : standaloneCallTest l.trimmed = false)
    (hforS : startsWithS l.trimmed "for " = false)
    (hguard : (startsWithS l.trimmed "if " || startsWithS l.trimmed "while ") = true) :
    processLine l vars out all =
      ([if startsWithS l.trimmed "if " then
          Step.ifStatementStep l.originalIndex
            (trimJs (String.mk ((l.trimmed.data.drop 3).dropLast)))
            (evalGuard safeEval (trimJs (String.mk ((l.trimmed.data.drop 3).dropLast))) vars)
            (deepCopyEnv vars) out
        else
          Step.whileLoopStartStep l.originalIndex
            (trimJs (String.mk ((l.trimmed.data.drop 6).dropLast)))
            (evalGuard safeEval (trimJs (String.mk ((l.trimmed.data.drop 6).dropLast))) vars)
            (deepCopyEnv vars) out], vars, out) ∧
    parseCodeAux (f + 1) (l :: rest) vars out all =
      (parseCodeAux f rest vars out all).map
        ((if startsWithS l.trimmed "if " then
            Step.ifStatementStep l.originalIndex
              (trimJs (String.mk ((l.trimmed.data.drop 3).dropLast)))
              (evalGuard safeEval (trimJs (String.mk ((l.trimmed.data.drop 3).dropLast))) vars)
              (deepCopyEnv vars) out
          else
            Step.whileLoopStartStep l.originalIndex
              (trimJs (String.mk ((l.trimmed.data.drop 6).dropLast)))
              (evalGuard safeEval (trimJs (String.mk ((l.trimmed.data.drop 6).dropLast))) vars)
              (deepCopyEnv vars) out) :: ·) := by
  have hp : processLine l vars out all =
      ([if startsWithS l.trimmed "if " then
          Step.ifStatementStep l.originalIndex
            (trimJs (String.mk ((l.trimmed.data.drop 3).dropLast)))
            (evalGuard safeEval (trimJs (String.mk ((l.trimmed.data.drop 3).dropLast))) vars)
            (deepCopyEnv vars) out
        else
          Step.whileLoopStartStep l.originalIndex
            (trimJs (String.mk ((l.trimmed.data.drop 6).dropLast)))
            (evalGuard safeEval (trimJs (String.mk ((l.trimmed.data.drop 6).dropLast))) vars)
            (deepCopyEnv vars) out], vars, out) := by
    unfold processLine processLineCore
    cases hI : startsWithS l.trimmed "if " with
    | true =>
        rw [if_neg (by simp [hne, hcm])]
        rw [if_neg (by simp [hassign]), if_neg (by simp [haug]), if_neg (by simp [hlist]),
          if_neg (by simp [hprint]), if_neg (by simp [hdefS]), if_neg (by simp [hstand]),
          if_neg (by simp [hforS]), if_pos (by simp [hI])]
        rfl
    | false =>
        have hW : startsWithS l.trimmed "while " = true := by
          cases hW' : startsWithS l.trimmed "while " with
          | true => rfl
          | false => rw [hI, hW'] at hguard; exact absurd hguard (by simp)
        rw [if_neg (by simp [hne, hcm])]
        rw [if_neg (by simp [hassign]), if_neg (by simp [haug]), if_neg (by simp [hlist]),
          if_neg (by simp [hprint]), if_neg (by simp [hdefS]), if_neg (by simp [hstand]),
          if_neg (by simp [hforS]), if_neg (by simp [hI]), if_pos (by simp [hW])]
        rfl
  refine ⟨hp, ?_⟩
  rw [parseCodeAux_succ]
  unfold parseCodeStep
  rw [if_neg (by simp [hne, hcm]), if_neg (by simp [hforS]), if_neg (by simp [hdefS]), hp]
  rfl

/-- **C5** (witness).  `if x > 2:` with `x = 5` produces exactly one
`if_statement` step with `conditionResult = true`, and the scan continues
unchanged. -/
theorem C5_guard_header_witness :
    processLine ⟨"if x > 2:", 0, "if x > 2:", 0⟩ [("x", .num 5)] [] [] =
      ([Step.ifStatementStep 0 "x > 2" true [("x", .num 5)] []], [("x", .num 5)], []) ∧
    parseCodeAux 1 [⟨"if x > 2:", 0, "if x > 2:", 0⟩] [("x", .num 5)] [] [] =
      (parseCodeAux 0 [] [("x", .num 5)] [] []).map
        (Step.ifStatementStep 0 "x > 2" true [("x", .num 5)] [] :: ·) :=
  C5_guard_header_one_step_body_unconditional 0 ⟨"if x > 2:", 0, "if x > 2:", 0⟩
    [] [] [("x", .num 5)] [] (by decide) rfl rfl rfl rfl rfl rfl rfl rfl rfl

end DeCode

namespace DeCode

/-- **C9** (amended, proved).  For a dict-valued variable
`d = {'a': w}` (any stored value `w`, any prior output, any line number),
whose entries lack the key `'b'`: `d.get('b')` returns None and
`d.get('b', 5)` returns the supplied default, each recording exactly one
`dict_operation` step; but `d.pop(...)` never reaches the dictionary
branch — `pop` is also in the list-operation branch test, which is
checked first (source line 2235 before 2308), so both `d.pop('b')` and
`d.pop('b', 5)` produce a single `error` step reading
`'object' object has no attribute 'pop'`, regardless of the default. -/
theorem C9_get_works_pop_shadowed (i : Nat) (w : Value) (out : List String) :
    processLine2 ⟨"d.get('b')", i, "d.get('b')", 0⟩ [("d", .dict [("a", w)])] out =
      ([Step.dictOperationStep i "d" "get" (.dict [("a", w)]) (.dict [("a", w)])
         "Got value for key 'b': None" .null
         [("d", .dict [("a", jsonDeepCopy w)])] out],
       [("d", .dict [("a", w)])], out) ∧
    processLine2 ⟨"d.get('b', 5)", i, "d.get('b', 5)", 0⟩ [("d", .dict [("a", w)])] out =
      ([Step.dictOperationStep i "d" "get" (.dict [("a", w)]) (.dict [("a", w)])
         "Got value for key 'b': 5" (.num 5)
         [("d", .dict [("a", jsonDeepCopy w)])] out],
       [("d", .dict [("a", w)])], out) ∧
    processLine2 ⟨"d.pop('b')", i, "d.pop('b')", 0⟩ [("d", .dict [("a", w)])] out =
      ([Step.errorStep i "'object' object has no attribute 'pop'"
         [("d", .dict [("a", jsonDeepCopy w)])] out],
       [("d", .dict [("a", w)])], out) ∧
    processLine2 ⟨"d.pop('b', 5)", i, "d.pop('b', 5)", 0⟩ [("d", .dict [("a", w)])] out =
      ([Step.errorStep i "'object' object has no attribute 'pop'"
         [("d", .dict [("a", jsonDeepCopy w)])] out],
       [("d", .dict [("a", w)])], out) :=
  ⟨rfl, rfl, rfl, rfl⟩

end DeCode
